import Mathlib

/-!
Verification of the CLOVIS multi-agent orchestrator.

This file gives a shallow embedding, in Lean 4, of the parts of the Python
source that the specification's checked claims are about:

* `models/models.py` — the router chaining loop (`call_gemini`), the
  direct-response sanitization helpers and the stored-screenshot slot;
* `agents/clovis/tools.py` — coordinate denormalization and the text-panel
  non-overlap placement algorithm;
* `agents/cua_vision/tools.py` / `single_call.py` — bounding-box coordinate
  conversion and the function-call batch normalizer;
* `agents/cua_cli/agent.py` — port extraction, server-launch detection,
  background promotion and the localhost-claim validation of `execute`;
* `ui/server.py` — overlay-input de-duplication.

Conventions of the embedding:

* Python floats are modelled as exact rationals (`ℚ`); machine ints as `ℤ`
  or `ℕ`.  `int(x)` is truncation toward zero (`py_int`), `round(x)` is
  round-half-to-even (`py_round`), matching CPython.
* Python `None` becomes `Option`; falsy-string dispatch (`a or b`) is made
  explicit (`py_or_opt`, `py_str_or`).
* External effects (the LLM, the OS process table, the file system, port
  reachability over time, wall-clock time) are oracle parameters: a theorem
  quantified over all oracles covers every concrete run of the code.
* Module-level mutable state (the screenshot slot, the text-rectangle cache,
  the seen-request-id table) is passed explicitly as state values.
-/

namespace Clovis

/-! ## Python string primitives -/

/-- Helper splitting a character list into maximal non-whitespace runs. -/
def words_aux : List Char → List Char → List (List Char)
  | [], acc => if acc.isEmpty then [] else [acc.reverse]
  | c :: rest, acc =>
    if c.isWhitespace then
      if acc.isEmpty then words_aux rest [] else acc.reverse :: words_aux rest []
    else words_aux rest (c :: acc)

/-- Python `str.split()` with no argument: split on whitespace runs and drop
empty fields. -/
def py_split_ws (s : String) : List String :=
  (words_aux s.data []).map (fun w => ⟨w⟩)

/-- Python `sep.join(parts)`. -/
def join_with (sep : String) : List String → String
  | [] => ""
  | [x] => x
  | x :: xs => x ++ sep ++ join_with sep xs

/-- Python `" ".join(str(value).split())`: collapse all whitespace runs to
single spaces and trim the ends. -/
def normalize_ws (s : String) : String :=
  join_with " " (py_split_ws s)

/-- Python `str.lower()`, character by character. -/
def py_lower (s : String) : String :=
  ⟨s.data.map Char.toLower⟩

/-- Python `str.strip()`: remove leading and trailing whitespace. -/
def py_strip (s : String) : String :=
  ⟨(s.data.dropWhile Char.isWhitespace).reverse.dropWhile Char.isWhitespace |>.reverse⟩

/-- Substring containment, as Python's `in` operator on `str`. -/
def str_contains (haystack needle : String) : Bool :=
  (List.range (haystack.data.length + 1)).any
    (fun i => needle.data.isPrefixOf (haystack.data.drop i))

/-- Python `int(q)` on a float: truncation toward zero. -/
def py_int (q : ℚ) : ℤ :=
  if 0 ≤ q then ⌊q⌋ else ⌈q⌉

/-- Python `round(q)` on a float: round half to even. -/
def py_round (q : ℚ) : ℤ :=
  let f := ⌊q⌋
  let frac := q - (f : ℚ)
  if frac < 1/2 then f
  else if 1/2 < frac then f + 1
  else if f % 2 = 0 then f else f + 1

/-- Python `a or b` on optional strings: the first operand that is truthy
(present and non-empty); otherwise the second operand unchanged. -/
def py_or_opt (a b : Option String) : Option String :=
  match a with
  | some s => if s = "" then b else some s
  | none => b

/-- Python `s or default` where `s` may be `None` or empty. -/
def py_str_or (a : Option String) (default : String) : String :=
  match a with
  | some s => if s = "" then default else s
  | none => default

/-- Python truthiness of an optional string (`if value:`). -/
def py_truthy (a : Option String) : Bool :=
  match a with
  | some s => s ≠ ""
  | none => false

/-- Python slicing `s[:n]` on a string: the first `n` characters. -/
def py_take (s : String) (n : ℕ) : String :=
  ⟨s.data.take n⟩

/-! ## models/models.py : `_clean_text`

`_clean_text(value, fallback, max_len)` collapses whitespace, falls back on
`None`/empty, and truncates to `max_len` characters with a `"..."` suffix. -/

def clean_text (value : Option String) (fallback : String) (maxLen : ℕ) : String :=
  match value with
  | none => fallback
  | some v =>
    let text := normalize_ws v
    if text = "" then fallback
    else if maxLen < text.length then (py_take text (maxLen - 3)) ++ "..."
    else text

/-! ## C10 : the stored-screenshot slot (models/models.py lines 53-72)

`_stored_screenshot` is a module-level slot.  `store_screenshot` grabs the
screen and fills it; `get_stored_screenshot` returns the stored image when
present, otherwise a fresh grab, and clears the slot either way.  Screen
images are opaque; `ImageGrab.grab()` is the oracle argument `grab`. -/

/-- Screenshots are opaque to the embedding. -/
abbrev Screenshot := ℕ

/-- The module-level `_stored_screenshot` slot. -/
structure ScreenshotSlot where
  stored : Option Screenshot
deriving DecidableEq

/-- `store_screenshot()`: capture (`grab`) and store; returns the capture. -/
def store_screenshot (grab : Screenshot) (_s : ScreenshotSlot) :
    Screenshot × ScreenshotSlot :=
  (grab, ⟨some grab⟩)

/-- `get_stored_screenshot()`: the stored screenshot if present else a fresh
grab (`grab`); the slot is cleared in both cases. -/
def get_stored_screenshot (grab : Screenshot) (s : ScreenshotSlot) :
    Screenshot × ScreenshotSlot :=
  (match s.stored with
   | some img => img
   | none => grab, ⟨none⟩)

/-! ## C4 : coordinate normalization

`denormalize` (agents/clovis/tools.py lines 61-78) maps each coordinate in
the band `[0, 1000]` to `int(v / 1000 * size)` and passes every other value
through unchanged.  `_to_pixels` (agents/cua_vision/tools.py lines 288-295)
first treats `[0, 1]` as a ratio, then `[0, 1000]` as normalized, then
passes through.  The viewport/screen dimensions read from module state are
the `width`/`height` parameters. -/

/-- `denormalize(norm_x, norm_y)` with the effective viewport size passed
explicitly (`width = viewport_width or screen_width`, same for height). -/
def denormalize (width height : ℚ) (norm_x norm_y : ℚ) : ℚ × ℚ :=
  (if 0 ≤ norm_x ∧ norm_x ≤ 1000 then ((py_int (norm_x / 1000 * width) : ℤ) : ℚ) else norm_x,
   if 0 ≤ norm_y ∧ norm_y ≤ 1000 then ((py_int (norm_y / 1000 * height) : ℤ) : ℚ) else norm_y)

/-- `_to_pixels(value, size)` from agents/cua_vision/tools.py. -/
def to_pixels (value : ℚ) (size : ℚ) : ℚ :=
  if 0 ≤ value ∧ value ≤ 1 then value * size
  else if 0 ≤ value ∧ value ≤ 1000 then value / 1000 * size
  else value

/-! ## C5 : the vision engine's function-call batch normalizer

`SingleCallVisionEngine._normalize_function_call_batch`
(agents/cua_vision/single_call.py lines 238-276).  Only the `.name` of each
function call is inspected, so a batch is modelled as a list of names. -/

def CLICK_TOOL_NAMES : List String :=
  ["click_left_click", "click_double_left_click", "click_right_click"]

def POSITIONING_TOOL_NAMES : List String :=
  ["go_to_element", "crop_and_search"]

/-- Membership of a call name in `CLICK_TOOL_TO_TYPE` (its key set). -/
def is_click_tool (n : String) : Bool :=
  decide (n ∈ CLICK_TOOL_NAMES)

/-- Membership of a call name in `POSITIONING_TOOLS`. -/
def is_positioning_tool (n : String) : Bool :=
  decide (n ∈ POSITIONING_TOOL_NAMES)

/-- `_normalize_function_call_batch(function_calls)` on the call names.
When more than one call is present, `first` is `function_calls[0]` and
`second` is `function_calls[1]` (both exist since the length is at least
2); `function_calls[2] == "task_is_complete"` is tested with a default
that can never equal the literal, mirroring the `len >= 3 and ...` guard. -/
def normalize_function_call_batch (calls : List String) : List String :=
  if calls.length ≤ 1 then calls
  else
    let first := calls.headD ""
    let second := calls.getD 1 ""
    if first = "task_is_complete" then [first]
    else if is_positioning_tool first && is_click_tool second then
      (if calls.getD 2 "" = "task_is_complete" then calls.take 3 else calls.take 2)
    else if is_click_tool first && second = "task_is_complete" then calls.take 2
    else [first]

/-- The batch shapes the claim enumerates: at most one call, a
positioning-click pair, or a positioning-click-complete triple. -/
def batch_shape_claimed (out : List String) : Prop :=
  out.length ≤ 1
  ∨ (∃ p c, out = [p, c]
      ∧ is_positioning_tool p = true ∧ is_click_tool c = true)
  ∨ (∃ p c, out = [p, c, "task_is_complete"]
      ∧ is_positioning_tool p = true ∧ is_click_tool c = true)

/-- The batch shapes the code actually produces: additionally a
click-then-complete pair. -/
def batch_shape_amended (out : List String) : Prop :=
  batch_shape_claimed out
  ∨ (∃ c, out = [c, "task_is_complete"] ∧ is_click_tool c = true)

/-! ## C9 : direct-response sanitization (models/models.py lines 266-322)

`ChainStep` records one delegated agent invocation of a router session. -/

structure ChainStep where
  agent : String
  task : String
  success : Bool
  message : String
  source : String
deriving DecidableEq

/-- `_user_requested_repeat(user_prompt)`. -/
def user_requested_repeat (user_prompt : String) : Bool :=
  let lowered := py_lower user_prompt
  ["repeat", "again", "do it again", "rerun", "redo", "one more time"].any
    (fun marker => str_contains lowered marker)

/-- `_looks_like_repeat_artifact(text)`. -/
def looks_like_repeat_artifact (text : String) : Bool :=
  let lowered := py_lower text
  ["repeat the exact same task", "already completed", "already created",
   "already moved", "already done",
   "is there anything else i can help you with"].any
    (fun pat => str_contains lowered pat)

/-- The `messages` local of `_summarize_completed_steps`: the cleaned,
non-empty messages of the successful chain steps. -/
def successful_step_messages (steps : List ChainStep) : List String :=
  ((steps.filter (fun s => s.success)).map
    (fun s => clean_text (some s.message) "" 220)).filter (fun m => m ≠ "")

/-- `_summarize_completed_steps(chain_steps)`.  Negative Python indices
`messages[-2]` / `messages[-1]` are `length - 2` / `length - 1`. -/
def summarize_completed_steps (steps : List ChainStep) : String :=
  if (steps.filter (fun s => s.success)).isEmpty then "Task completed."
  else
    let messages := successful_step_messages steps
    if messages.isEmpty then "Task completed."
    else if messages.length = 1 then "Task completed: " ++ messages.headD ""
    else
      "Task completed: " ++ messages.getD (messages.length - 2) ""
        ++ " Then: " ++ messages.getD (messages.length - 1) ""

/-- `_finalize_direct_response_text(user_prompt, chain_steps, text)`. -/
def finalize_direct_response_text
    (user_prompt : String) (chain_steps : List ChainStep) (text : String) : String :=
  let cleaned := clean_text (some text) "Task completed." 420
  if chain_steps.isEmpty then cleaned
  else if user_requested_repeat user_prompt then cleaned
  else if looks_like_repeat_artifact cleaned then summarize_completed_steps chain_steps
  else cleaned

/-! ## C8 : overlay-input de-duplication (ui/server.py lines 366-397)

The de-duplication state of `VisualizationServer`: the request-id table
(`_seen_overlay_request_ids`, a dict modelled as a partial function from id
to the monotonic timestamp of the accepted event that recorded it),
`_last_overlay_text` and `_last_overlay_ts`.  Handler invocations
(`self.on_overlay_input(text)`, assumed registered) are logged in
`handler_calls`.  A missing `requestId` is the empty string (Python tests
truthiness).  Timestamps are rationals; the literal `1.2` is `6/5`. -/

structure OverlayInputState where
  seen_request_ids : String → Option ℚ
  last_overlay_text : String
  last_overlay_ts : ℚ
  handler_calls : List String

/-- The server's state right after `__init__`. -/
def initial_overlay_state : OverlayInputState :=
  ⟨fun _ => none, "", 0, []⟩

/-- The expiry sweep over `_seen_overlay_request_ids`: entries older than
10 seconds are popped. -/
def purge_expired (now : ℚ) (seen : String → Option ℚ) : String → Option ℚ :=
  fun rid =>
    match seen rid with
    | some ts => if now - ts > 10 then none else some ts
    | none => none

/-- One `overlay_input` event (ui/server.py lines 366-397). -/
def handle_overlay_input (now : ℚ) (text request_id : String)
    (st : OverlayInputState) : OverlayInputState :=
  if request_id ≠ "" then
    let seen := purge_expired now st.seen_request_ids
    if (seen request_id).isSome then
      { st with seen_request_ids := seen }
    else
      { st with
        seen_request_ids := fun r => if r = request_id then some now else seen r,
        handler_calls := st.handler_calls ++ [text] }
  else
    let normalized := normalize_ws text
    if normalized ≠ "" ∧ normalized = st.last_overlay_text
        ∧ now - st.last_overlay_ts < 6/5 then
      st
    else
      { st with
        last_overlay_text := normalized,
        last_overlay_ts := now,
        handler_calls := st.handler_calls ++ [text] }

/-! ## C1, C2 : the router chaining loop (models/models.py lines 572-723)

The loop of `call_gemini` is embedded with three oracles covering the
external world, each indexed by the loop iteration:

* `route i` — the value `model.route_request(...)` returns at step `i`
  (`none` models a non-dict result, replaced by the invalid-shape direct
  response exactly as in the code);
* `run i rd` — the success flag and completion message produced by
  `_run_routed_agent_step` for the delegated agent of `rd` (the recorded
  `agent`/`task`/`source` fields are computed by the embedding itself);
* `judge i rd` — the outcome of the screen-judge step (`success` is
  whether `generate_screen_context` returned without raising; `message` is
  the recorded step message).

A run of the session is observed as a list of `SessionEvent`s: each
executed chain step (with the `_routing_signature` computed for it) and
each emitted `direct_response` tool invocation. -/

def MAX_ROUTER_CHAIN_STEPS : ℕ := 6

def REPEATED_STEP_LIMIT : ℕ := 3

/-- The fields of a router-model result dict that `call_gemini` reads.
`direct_args_text` is `direct_response_args["text"]` when the args value
is a dict carrying that key, else `none`. -/
structure RoutingDict where
  agent : Option String
  task : Option String
  query : Option String
  response_text : Option String
  direct_args_text : Option String

/-- `_routing_task_text(routing_result)`. -/
def routing_task_text (rd : RoutingDict) : String :=
  clean_text (some (py_str_or (py_or_opt rd.task rd.query) "")) "" 220

/-- `_routing_signature(routing_result)`. -/
def routing_signature (rd : RoutingDict) : String × String :=
  (py_lower (py_strip (py_str_or rd.agent "")),
   py_lower (py_strip (routing_task_text rd)))

/-- Observable events of one router session. -/
inductive SessionEvent where
  | stepExec (sig : String × String) (step : ChainStep)
  | directResponse (text : String)
deriving DecidableEq

def is_step_event : SessionEvent → Bool
  | .stepExec _ _ => true
  | .directResponse _ => false

def is_sig_step (sig : String × String) : SessionEvent → Bool
  | .stepExec s _ => decide (s = sig)
  | .directResponse _ => false

/-- Occurrences of signature `sig` among the executed steps of a trace. -/
def sig_step_count (events : List SessionEvent) (sig : String × String) : ℕ :=
  events.countP (is_sig_step sig)

/-- Success flag and completion message of a delegated step, as produced by
the wrapped agent execution. -/
structure AgentOutcome where
  success : Bool
  message : String

/-- The `ChainStep` record `_run_routed_agent_step` returns: the four known
agents record their completion outcome; anything else records a failed
"unknown agent" step with source `rapid`. -/
def run_routed_agent_step (outcome : AgentOutcome) (rd : RoutingDict) : ChainStep :=
  if rd.agent = some "clovis" then
    { agent := "clovis", task := routing_task_text rd,
      success := outcome.success, message := outcome.message, source := "clovis" }
  else if rd.agent = some "browser" then
    { agent := "browser", task := rd.task.getD "",
      success := outcome.success, message := outcome.message, source := "browser_use" }
  else if rd.agent = some "cua_cli" then
    { agent := "cua_cli", task := rd.task.getD "",
      success := outcome.success, message := outcome.message, source := "cua_cli" }
  else if rd.agent = some "cua_vision" then
    { agent := "cua_vision", task := rd.task.getD "",
      success := outcome.success, message := outcome.message, source := "cua_vision" }
  else
    { agent := py_str_or rd.agent "unknown", task := routing_task_text rd,
      success := false, message := "Router returned an unknown agent.",
      source := "rapid" }

/-- The substitute dict for a non-dict router result. -/
def invalid_shape_routing : RoutingDict :=
  { agent := some "direct", task := none, query := none,
    response_text := some "Router returned an invalid response shape.",
    direct_args_text := none }

/-- The fixed repeat-loop direct response. -/
def repeated_step_message : String :=
  "I stopped automatic multi-agent chaining because the next delegated step "
    ++ "kept repeating. Please rephrase or ask for one specific next action."

/-- The fixed step-budget-exhausted direct response. -/
def max_step_message : String :=
  "I stopped after " ++ toString MAX_ROUTER_CHAIN_STEPS
    ++ " delegated steps to avoid loops. "
    ++ "If you want me to continue, ask for the next specific step."

/-- The text emitted for a `direct` routing result: the sanitized
`direct_args["text"] or response_text`. -/
def router_direct_text (user_prompt : String) (chain_steps : List ChainStep)
    (rd : RoutingDict) : String :=
  finalize_direct_response_text user_prompt chain_steps
    (clean_text (py_or_opt rd.direct_args_text rd.response_text)
      "Rapid response provided." 420)

/-- The `ChainStep` recorded for a `screen_context` step. -/
def screen_context_step (user_prompt : String) (outcome : AgentOutcome)
    (rd : RoutingDict) : ChainStep :=
  { agent := "screen_context",
    task := clean_text (some (py_str_or (py_or_opt rd.task (some user_prompt)) "")) "" 220,
    success := outcome.success, message := outcome.message,
    source := "screen_judge" }

/-- The `"Stopping chained execution because <label> failed: <message>"`
direct response. -/
def step_failure_text (label message : String) : String :=
  clean_text
    (some ("Stopping chained execution because " ++ label ++ " failed: " ++ message))
    "Task failed." 420

/-- `seen_step_signatures[signature] = seen_step_signatures.get(signature, 0) + 1`. -/
def bump_signature (seen : (String × String) → ℕ) (sig : String × String) :
    (String × String) → ℕ :=
  fun s => if s = sig then seen sig + 1 else seen s

/-- The per-step loop of `call_gemini` (models/models.py lines 589-723).
`fuel` is the number of remaining iterations of `range(_MAX_ROUTER_CHAIN_STEPS)`;
running out of fuel emits the step-budget message. -/
def router_chain_loop
    (route : ℕ → Option RoutingDict)
    (run : ℕ → RoutingDict → AgentOutcome)
    (judge : ℕ → RoutingDict → AgentOutcome)
    (user_prompt : String) :
    ℕ → ℕ → List ChainStep → ((String × String) → ℕ) → List SessionEvent
  | 0, _, _, _ => [SessionEvent.directResponse max_step_message]
  | fuel + 1, step_index, chain_steps, seen =>
    let rd := (route step_index).getD invalid_shape_routing
    if rd.agent = some "direct" then
      [SessionEvent.directResponse (router_direct_text user_prompt chain_steps rd)]
    else if REPEATED_STEP_LIMIT ≤ seen (routing_signature rd) + 1 then
      [SessionEvent.directResponse repeated_step_message]
    else if rd.agent = some "screen_context" then
      let step := screen_context_step user_prompt (judge step_index rd) rd
      SessionEvent.stepExec (routing_signature rd) step ::
        (if step.success then
          router_chain_loop route run judge user_prompt fuel (step_index + 1)
            (chain_steps ++ [step]) (bump_signature seen (routing_signature rd))
        else
          [SessionEvent.directResponse (step_failure_text "screen context" step.message)])
    else
      let step := run_routed_agent_step (run step_index rd) rd
      SessionEvent.stepExec (routing_signature rd) step ::
        (if step.success then
          router_chain_loop route run judge user_prompt fuel (step_index + 1)
            (chain_steps ++ [step]) (bump_signature seen (routing_signature rd))
        else
          [SessionEvent.directResponse (step_failure_text step.agent step.message)])

/-- One full router session (`call_gemini(user_prompt, ...)`): the loop
starts with no chain steps and empty signature counters. -/
def call_gemini
    (route : ℕ → Option RoutingDict)
    (run : ℕ → RoutingDict → AgentOutcome)
    (judge : ℕ → RoutingDict → AgentOutcome)
    (user_prompt : String) : List SessionEvent :=
  router_chain_loop route run judge user_prompt MAX_ROUTER_CHAIN_STEPS 0 []
    (fun _ => 0)

/-- A router result used as a concrete repeat-loop scenario: the model keeps
delegating the same CLI task. -/
def repeat_example_dict : RoutingDict :=
  { agent := some "cua_cli", task := some "clone repo", query := none,
    response_text := none, direct_args_text := none }

/-! ## C3, C7 : the CLI agent (agents/cua_cli/agent.py)

The regular expressions of the CLI agent are implemented as explicit
character scanners.  All patterns are applied case-insensitively in the
source (`re.IGNORECASE`), which the embedding realizes by scanning the
lowercased text; `\w` is approximated by ASCII alphanumerics plus
underscore, and `\s` by Unicode whitespace. -/

/-- A regex word character (`\w`). -/
def isWordChar (c : Char) : Bool :=
  c.isAlphanum || c = '_'

/-- Does the literal `w` occur at index `i`? -/
def lit_at (cs : List Char) (i : ℕ) (w : String) : Bool :=
  w.data.isPrefixOf (cs.drop i)

/-- A `\b` word boundary holds before index `i`. -/
def boundary_before (cs : List Char) (i : ℕ) : Bool :=
  decide (i = 0) || ! isWordChar (cs.getD (i - 1) ' ')

/-- A `\b` word boundary holds at index `j` (after the previous token). -/
def boundary_after (cs : List Char) (j : ℕ) : Bool :=
  decide (cs.length ≤ j) || ! isWordChar (cs.getD j ' ')

/-- First index at or after `i` holding a non-whitespace character. -/
def skip_ws (cs : List Char) (i : ℕ) : ℕ :=
  i + ((cs.drop i).takeWhile Char.isWhitespace).length

/-- Length of the digit run starting at `i`. -/
def digit_run (cs : List Char) (i : ℕ) : ℕ :=
  ((cs.drop i).takeWhile Char.isDigit).length

/-- Decimal value of the `len` digits starting at `i`. -/
def digits_value (cs : List Char) (i len : ℕ) : ℕ :=
  ((cs.drop i).take len).foldl (fun acc c => acc * 10 + (c.toNat - 48)) 0

/-- Consume the literal `w` at `i`, yielding the index after it. -/
def after_lit (cs : List Char) (i : ℕ) (w : String) : Option ℕ :=
  if lit_at cs i w then some (i + w.length) else none

/-- Consume `\s+` at `i`. -/
def after_ws1 (cs : List Char) (i : ℕ) : Option ℕ :=
  let j := skip_ws cs i
  if i < j then some j else none

def opt_check (o : Option ℕ) (f : ℕ → Bool) : Bool :=
  o.elim false f

/-- One of the words `ws` occurs at `i`, followed by a `\b` boundary. -/
def match_word_alt (cs : List Char) (i : ℕ) (ws : List String) : Bool :=
  ws.any (fun w => lit_at cs i w && boundary_after cs (i + w.length))

/-! ### `_extract_port_candidates` (agents/cua_cli/agent.py lines 327-336)

The three patterns are `(?:localhost|127\.0\.0\.1)\s*:\s*(\d{2,5})`,
`\bport\s+(\d{2,5})\b` and `--port(?:=|\s+)(\d{2,5})`, each run with
`re.finditer` (non-overlapping, left to right, greedy `{2,5}`). -/

/-- Match of the `localhost:<port>` pattern at index `i`: port and match end. -/
def m_host_port (cs : List Char) (i : ℕ) : Option (ℕ × ℕ) :=
  (((after_lit cs i "localhost").orElse (fun _ => after_lit cs i "127.0.0.1")).bind
    (fun j =>
      let j1 := skip_ws cs j
      (after_lit cs j1 ":").bind (fun j2 =>
        let j3 := skip_ws cs j2
        let L := digit_run cs j3
        if 2 ≤ L then
          let k := min 5 L
          some (digits_value cs j3 k, j3 + k)
        else none)))

/-- Match of the `\bport <port>\b` pattern at index `i`. -/
def m_port_word (cs : List Char) (i : ℕ) : Option (ℕ × ℕ) :=
  if boundary_before cs i && lit_at cs i "port" then
    ((after_ws1 cs (i + 4)).bind (fun j =>
      let L := digit_run cs j
      if 2 ≤ L && L ≤ 5 && boundary_after cs (j + L) then
        some (digits_value cs j L, j + L)
      else none))
  else none

/-- Match of the `--port=<port>` / `--port <port>` pattern at index `i`. -/
def m_port_flag (cs : List Char) (i : ℕ) : Option (ℕ × ℕ) :=
  ((after_lit cs i "--port").bind (fun j =>
    ((after_lit cs j "=").orElse (fun _ => after_ws1 cs j)).bind (fun p =>
      let L := digit_run cs p
      if 2 ≤ L then
        let k := min 5 L
        some (digits_value cs p k, p + k)
      else none)))

/-- `re.finditer` for one pattern: scan left to right, resume after each
match.  `fuel` bounds the recursion by the text length. -/
def scan_pass_aux (m : List Char → ℕ → Option (ℕ × ℕ)) (cs : List Char) :
    ℕ → ℕ → List ℕ
  | 0, _ => []
  | fuel + 1, i =>
    if cs.length ≤ i then []
    else
      match m cs i with
      | some (p, e) => p :: scan_pass_aux m cs fuel (max e (i + 1))
      | none => scan_pass_aux m cs fuel (i + 1)

def scan_pass (m : List Char → ℕ → Option (ℕ × ℕ)) (cs : List Char) : List ℕ :=
  scan_pass_aux m cs (cs.length + 1) 0

def insert_sorted (x : ℕ) : List ℕ → List ℕ
  | [] => [x]
  | y :: ys => if x ≤ y then x :: y :: ys else y :: insert_sorted x ys

/-- Ascending sort, as Python `sorted`. -/
def sort_nat (l : List ℕ) : List ℕ :=
  l.foldr insert_sorted []

/-- `_extract_port_candidates(text)`: the sorted set of captured ports in
`[1, 65535]`. -/
def extract_port_candidates (text : String) : List ℕ :=
  let cs := (py_lower text).data
  let ports := scan_pass m_host_port cs ++ scan_pass m_port_word cs
    ++ scan_pass m_port_flag cs
  sort_nat ((ports.filter (fun p => 1 ≤ p && p ≤ 65535)).dedup)

/-! ### `_is_server_like_command` (agents/cua_cli/agent.py lines 236-253) -/

/-- Pattern `\bw\b` at index `i`. -/
def pat_word (cs : List Char) (i : ℕ) (w : String) : Bool :=
  boundary_before cs i && lit_at cs i w && boundary_after cs (i + w.length)

/-- Pattern `\bw1\s+w2\b` at index `i`. -/
def pat_word_seq2 (cs : List Char) (i : ℕ) (w1 w2 : String) : Bool :=
  boundary_before cs i && opt_check ((after_lit cs i w1).bind (after_ws1 cs))
    (fun j => lit_at cs j w2 && boundary_after cs (j + w2.length))

/-- Pattern `\btool\s+(alt1|alt2|...)\b` at index `i`. -/
def pat_tool_alt (cs : List Char) (i : ℕ) (tool : String) (alts : List String) : Bool :=
  boundary_before cs i && opt_check ((after_lit cs i tool).bind (after_ws1 cs))
    (fun j => match_word_alt cs j alts)

/-- Pattern `\bnpm\s+run\s+(dev|start|serve)\b` at index `i`. -/
def pat_npm_run (cs : List Char) (i : ℕ) : Bool :=
  boundary_before cs i && opt_check
    (((after_lit cs i "npm").bind (after_ws1 cs)).bind (fun j =>
      (after_lit cs j "run").bind (after_ws1 cs)))
    (fun j => match_word_alt cs j ["dev", "start", "serve"])

/-- Pattern `\bpython(?:3)?\s+-m\s+http\.server\b` at index `i`. -/
def pat_http_server (cs : List Char) (i : ℕ) : Bool :=
  boundary_before cs i && opt_check
    ((after_lit cs i "python").bind (fun j =>
      ((after_lit cs j "3").bind (after_ws1 cs)).orElse (fun _ => after_ws1 cs j)))
    (fun j => opt_check ((after_lit cs j "-m").bind (after_ws1 cs))
      (fun k => lit_at cs k "http.server" && boundary_after cs (k + 11)))

/-- Pattern `\bnode\s+.+\b(server|dev)\b` at index `i` (`.` excludes
newlines, `re.DOTALL` is not set for this pattern). -/
def pat_node (cs : List Char) (i : ℕ) : Bool :=
  boundary_before cs i && opt_check ((after_lit cs i "node").bind (after_ws1 cs))
    (fun j => (List.range (cs.length + 1)).any (fun q =>
      decide (j + 1 ≤ q)
      && ((cs.drop j).take (q - j)).all (fun c => c ≠ '\n')
      && boundary_before cs q
      && match_word_alt cs q ["server", "dev"]))

/-- `_is_server_like_command(command)`. -/
def is_server_like_command (command : String) : Bool :=
  let cs := (py_lower command).data
  (List.range (cs.length + 1)).any (fun i =>
    pat_npm_run cs i
    || pat_tool_alt cs i "npm" ["start", "serve"]
    || pat_tool_alt cs i "pnpm" ["dev", "start", "serve"]
    || pat_tool_alt cs i "yarn" ["dev", "start", "serve"]
    || pat_word_seq2 cs i "next" "dev"
    || pat_word cs i "vite"
    || pat_word cs i "webpack-dev-server"
    || pat_word cs i "uvicorn"
    || pat_word_seq2 cs i "flask" "run"
    || pat_http_server cs i
    || pat_node cs i
    || pat_word cs i "gunicorn")

/-! ### Tool calls, cd-chain resolution and server-launch inference -/

/-- A parsed stream-json `tool_use` record, as `execute` sees it.  The
`parameters` dict is modelled by its three command-carrying keys plus a
presence flag. -/
structure ToolCall where
  tool_name : Option String
  tool_id : Option String
  param_command : Option String
  param_cmd : Option String
  param_script : Option String
  has_params : Bool
  status : Option String
deriving DecidableEq

/-- `_extract_shell_command_from_tool_call(tool_call)`. -/
def extract_shell_command_from_tool_call (tc : ToolCall) : Option String :=
  let name := py_lower (py_strip (py_str_or tc.tool_name ""))
  if name = "run_shell_command" ∨ name = "shell" ∨ name = "bash" then
    if tc.has_params then
      match py_or_opt (py_or_opt tc.param_command tc.param_cmd) tc.param_script with
      | none => none
      | some raw =>
        let c := py_strip raw
        if c = "" then none else some c
    else none
  else none

/-- Python `str.split(sep)` for a non-empty separator, by fuel over the
text length. -/
def split_on_aux (sep : List Char) : ℕ → List Char → List Char → List (List Char)
  | 0, acc, rest => [acc.reverse ++ rest]
  | fuel + 1, acc, rest =>
    if sep.isPrefixOf rest then
      acc.reverse :: split_on_aux sep fuel [] (rest.drop sep.length)
    else
      match rest with
      | [] => [acc.reverse]
      | c :: cs => split_on_aux sep fuel (c :: acc) cs

def py_split_on (s sep : String) : List String :=
  (split_on_aux sep.data (s.data.length + 1) [] s.data).map (fun l => ⟨l⟩)

/-- `_extract_server_subcommand(command)`: the last server-like `&&` segment,
else the whole trimmed command.  (`re.split(r"\s*&&\s*")` followed by
`.strip()` on each segment trims the same whitespace.) -/
def extract_server_subcommand (command : String) : String :=
  let segments := ((py_split_on command "&&").map py_strip).filter (fun s => s ≠ "")
  match segments.reverse.find? (fun seg => is_server_like_command seg) with
  | some seg => seg
  | none => py_strip command

/-- Match of `^\s*cd\s+([^;&|]+?)\s*&&\s*(.+)$` (IGNORECASE, DOTALL): the
non-greedy group runs up to the first `;`/`&`/`|`, which must start a
literal `&&`; both groups are returned stripped, as the caller strips
them. -/
def parse_cd_chain (s : String) : Option (String × String) :=
  let low := (py_lower s).data
  let cs := s.data
  let i := skip_ws low 0
  if lit_at low i "cd" then
    let j := skip_ws low (i + 2)
    if i + 2 < j then
      let body := cs.drop j
      let run := body.takeWhile (fun c => c ≠ ';' && c ≠ '&' && c ≠ '|')
      let rest := body.drop run.length
      if 1 ≤ run.length && lit_at rest 0 "&&" then
        let g2 := rest.drop 2
        if 1 ≤ g2.length then some (py_strip ⟨run⟩, py_strip ⟨g2⟩) else none
      else none
    else none
  else none

/-- Match of `^\s*cd\s+(.+?)\s*$` (IGNORECASE, DOTALL); the target is
returned stripped, which `_resolve_shell_path` does first in any case. -/
def parse_cd_only (s : String) : Option String :=
  let low := (py_lower s).data
  let cs := s.data
  let i := skip_ws low 0
  if lit_at low i "cd" then
    if i + 2 < cs.length && (low.getD (i + 2) 'x').isWhitespace
        && i + 4 ≤ cs.length then
      some (py_strip ⟨cs.drop (i + 2)⟩)
    else none
  else none

/-- `_infer_server_launch_from_tool_calls(tool_calls)`.  `resolve` is the
oracle for `_resolve_shell_path` (filesystem- and environment-dependent;
`none` models the swallowed exception), `cwd0` is `Path.cwd()`. -/
def infer_server_launch (resolve : String → String → Option String)
    (cwd0 : String) (tool_calls : Option (List ToolCall)) :
    Option (String × String) :=
  match tool_calls with
  | none => none
  | some tcs =>
    if tcs.isEmpty then none
    else
      (tcs.foldl (fun (st : String × Option (String × String)) tc =>
        let current_dir := st.1
        let candidate := st.2
        if tc.status = some "error" then (current_dir, candidate)
        else
          match extract_shell_command_from_tool_call tc with
          | none => (current_dir, candidate)
          | some command =>
            match parse_cd_chain command with
            | some tr =>
              let dir2 := (resolve tr.1 current_dir).getD current_dir
              if is_server_like_command tr.2 then
                (dir2, some (extract_server_subcommand tr.2, dir2))
              else (dir2, candidate)
            | none =>
              match parse_cd_only command with
              | some target =>
                ((resolve target current_dir).getD current_dir, candidate)
              | none =>
                if is_server_like_command command then
                  (current_dir, some (extract_server_subcommand command, current_dir))
                else (current_dir, candidate)) (cwd0, none)).2

/-! ### Port waiting, background processes, promotion, and `execute` tail -/

/-- `_is_timeout_error_text(text)`. -/
def is_timeout_error_text (text : Option String) : Bool :=
  let lowered := py_lower (py_str_or text "")
  str_contains lowered "timed out" || str_contains lowered "timeout"

/-- `_wait_for_any_port(ports, timeout)`: the polling loop abstracted by a
reachability oracle for its time window — the first listed port the oracle
marks reachable, `none` when no port opens before the deadline. -/
def wait_for_any_port (reach : ℕ → Bool) (ports : List ℕ) : Option ℕ :=
  if ports.isEmpty then none else ports.find? reach

/-- Python `repr` of an int list, as f-string formatting produces it. -/
def py_list_repr (l : List ℕ) : String :=
  "[" ++ join_with ", " (l.map toString) ++ "]"

/-- `_validate_local_server_claim(output_text)` with the 15-second port
poll abstracted by `reach`. -/
def validate_local_server_claim (reach : ℕ → Bool) (output_text : String) :
    Option String :=
  if output_text = "" then none
  else
    let lowered := py_lower output_text
    let has_localhost_hint := str_contains lowered "localhost"
      || str_contains lowered "127.0.0.1" || str_contains lowered "port "
    let has_running_hint := ["running", "started", "listening", "serving",
      "available at"].any (fun w => str_contains lowered w)
    if ¬ (has_localhost_hint = true ∧ has_running_hint = true) then none
    else
      let ports := extract_port_candidates output_text
      if ports.isEmpty then none
      else
        match wait_for_any_port reach ports with
        | some _ => none
        | none => some
            ("Task reported a local server as running, but none of the claimed ports are reachable: "
              ++ py_list_repr ports
              ++ ". The process likely exited or never started successfully.")

/-- `_clean_join_text(*parts)`. -/
def clean_join_text (parts : List String) : String :=
  join_with " | " ((parts.map normalize_ws).filter (fun p => p ≠ ""))

/-- The OS-level effects of `_start_background_process`, as oracles:
`fresh_id` is `uuid4().hex[:8]`, `tmp_dir` is `tempfile.gettempdir()`,
`spawn_pid` the pid of the detached subprocess, `getpgid_result` the
result of `os.getpgid(pid)` (`none` = raised), `reach20` the 20-second
port poll, `now` is `time.time()`. -/
structure OsEnv where
  fresh_id : String
  tmp_dir : String
  spawn_pid : ℕ
  getpgid_result : Option ℕ
  reach20 : ℕ → Bool
  now : ℚ

/-- The Managed Background Process record (`metadata` in the source; a
missing `ports` key is the empty list, missing `active_port` /
`health_warning` are `none`). -/
structure ProcMeta where
  id : String
  pid : ℕ
  pgid : ℕ
  command : String
  cwd : String
  log_path : String
  started_at : ℚ
  task : String
  ports : List ℕ
  active_port : Option ℕ
  health_warning : Option String
deriving DecidableEq

/-- The result dict of `CLIAgent.execute` and of promotion. -/
structure CLIResult where
  success : Bool
  result : Option String
  error : Option String
  tool_calls : Option (List ToolCall)
deriving DecidableEq

/-- The structured `CLIResponse` produced by `_run_cli`. -/
structure CLIResponse where
  success : Bool
  output : String
  error : Option String
  tool_calls : Option (List ToolCall)
deriving DecidableEq

/-- `_start_background_process(command, env, working_dir, task)`: returns
the result dict, the recorded metadata, the file system with the created
log file, and the updated process table. -/
def start_background_process (env : OsEnv) (fs : List String)
    (table : List (String × ProcMeta)) (command cwd task : String) :
    CLIResult × ProcMeta × List String × List (String × ProcMeta) :=
  let process_id := env.fresh_id
  let log_path := env.tmp_dir ++ "/clovis_cli_bg_" ++ process_id ++ ".log"
  let fs2 := fs ++ [log_path]
  let pid := env.spawn_pid
  let pgid := (env.getpgid_result).getD pid
  let ports := extract_port_candidates (task ++ "\n" ++ command)
  let opened := if ports.isEmpty then none else wait_for_any_port env.reach20 ports
  let meta : ProcMeta :=
    { id := process_id, pid := pid, pgid := pgid, command := command, cwd := cwd,
      log_path := log_path, started_at := env.now, task := task,
      ports := ports, active_port := opened,
      health_warning :=
        if ports.isEmpty || opened.isSome then none
        else some ("Started process " ++ toString pid
          ++ ", but no expected port became reachable: " ++ py_list_repr ports) }
  let summary_parts :=
    ["Started background process " ++ process_id,
     "(pid " ++ toString pid ++ ")",
     "command: " ++ command,
     "log: " ++ log_path]
    ++ (match opened with
        | some p => ["verified on http://127.0.0.1:" ++ toString p]
        | none =>
          if ports.isEmpty then []
          else ["expected ports: " ++ py_list_repr ports,
                "health-check did not confirm readiness yet"])
  let bg_tc : ToolCall :=
    { tool_name := some "background_process_manager", tool_id := some process_id,
      param_command := some command, param_cmd := none, param_script := none,
      has_params := true, status := none }
  ({ success := true,
     result := some (join_with " | " summary_parts),
     error := none,
     tool_calls := some [bg_tc] },
   meta, fs2, table ++ [(process_id, meta)])

/-- `_maybe_promote_server_launch_from_tool_calls(task, response)`:
`reach12` abstracts the 1.2-second pre-check poll; promotion threads the
file system and process table. -/
def maybe_promote_server_launch (resolve : String → String → Option String)
    (reach12 : ℕ → Bool) (env : OsEnv) (cwd0 : String)
    (fs : List String) (table : List (String × ProcMeta))
    (task : String) (response : CLIResponse) :
    Option (CLIResult × List String × List (String × ProcMeta)) :=
  match infer_server_launch resolve cwd0 response.tool_calls with
  | none => none
  | some launch =>
    let combined := join_with "\n"
      (([task, response.output, launch.1]).filter (fun p => p ≠ ""))
    let ports := extract_port_candidates combined
    let opened := if ports.isEmpty then none else wait_for_any_port reach12 ports
    match opened with
    | some p =>
      if is_timeout_error_text response.error then
        some ({ success := true,
                result := some (clean_join_text [response.output,
                  "Local server is reachable on http://127.0.0.1:" ++ toString p ++ "."]),
                error := none,
                tool_calls := response.tool_calls }, fs, table)
      else none
    | none =>
      let started := start_background_process env fs table launch.1 launch.2 task
      let merged_result := clean_join_text [response.output, py_str_or started.1.result ""]
      let merged_tool_calls := (response.tool_calls.getD []) ++ (started.1.tool_calls.getD [])
      some ({ success := true, result := some merged_result, error := none,
              tool_calls := if merged_tool_calls.isEmpty then none
                else some merged_tool_calls },
        started.2.2.1, started.2.2.2)

/-- Python truthiness of `response.tool_calls` (`None` and `[]` falsy). -/
def has_tool_calls (response : CLIResponse) : Bool :=
  match response.tool_calls with
  | some l => ! l.isEmpty
  | none => false

/-- The tail of `CLIAgent.execute` (agents/cua_cli/agent.py lines 764-789):
promotion, localhost-claim validation, a second promotion chance, and the
final result dict.  The two promotion attempts and the validation poll run
at different times, hence the separate reachability oracles and `OsEnv`s. -/
def execute_tail (resolve : String → String → Option String)
    (reach12a reach15 reach12b : ℕ → Bool) (env1 env2 : OsEnv) (cwd0 : String)
    (fs : List String) (table : List (String × ProcMeta))
    (task : String) (response : CLIResponse) :
    CLIResult × List String × List (String × ProcMeta) :=
  let promoted1 :=
    if has_tool_calls response then
      maybe_promote_server_launch resolve reach12a env1 cwd0 fs table task response
    else none
  match promoted1 with
  | some r => r
  | none =>
    match validate_local_server_claim reach15 response.output with
    | none =>
      ({ success := response.success, result := some response.output,
         error := response.error, tool_calls := response.tool_calls }, fs, table)
    | some err =>
      let promoted2 :=
        if has_tool_calls response then
          maybe_promote_server_launch resolve reach12b env2 cwd0 fs table task response
        else none
      match promoted2 with
      | some r => r
      | none =>
        ({ success := false, result := some response.output,
           error := some err, tool_calls := response.tool_calls }, fs, table)

/-! ## C6 : text-panel placement (agents/clovis/tools.py lines 169-503)

The text non-overlap machinery: panel-size estimation from the CSS layout
model, anchor resolution with viewport clamping, overlap tests against the
live `_ACTIVE_TEXT_RECTS` cache, and the ring search of
`_resolve_non_overlapping_anchor`.  The viewport dimensions
(`_viewport_dimensions()`) are explicit parameters; the cache is an
association list with unique ids (a Python dict). -/

/-- `_clamp(value, low, high)`. -/
def clamp (value low high : ℚ) : ℚ :=
  max low (min high value)

/-- `_normalize_align(align)`. -/
def normalize_align (align : Option String) : String :=
  let value := py_lower (py_strip (py_str_or align "left"))
  if value = "left" ∨ value = "center" ∨ value = "right" then value else "left"

/-- `_normalize_baseline(baseline)`. -/
def normalize_baseline (baseline : Option String) : String :=
  let value := py_lower (py_strip (py_str_or baseline "top"))
  if value = "middle" ∨ value = "center" then "middle"
  else if value = "bottom" then "bottom"
  else "top"

/-- Fixed-size chunks of a word (`range(0, len(word), max_chars)` slices). -/
def chunk_chars (k : ℕ) (l : List Char) : List (List Char) :=
  if h : k = 0 ∨ l = [] then (if l = [] then [] else [l])
  else (l.take k) :: chunk_chars k (l.drop k)
termination_by l.length
decreasing_by
  push_neg at h
  have h1 : 0 < k := Nat.pos_of_ne_zero h.1
  have h2 : 0 < l.length := List.length_pos.mpr h.2
  simp only [List.length_drop]
  omega

/-- Python `str.splitlines()` restricted to `\n`, `\r\n` and `\r`. -/
def splitlines_aux : ℕ → List Char → List Char → List (List Char)
  | 0, acc, rest => if acc.isEmpty && rest.isEmpty then [] else [acc.reverse ++ rest]
  | fuel + 1, acc, rest =>
    match rest with
    | [] => if acc.isEmpty then [] else [acc.reverse]
    | '\r' :: '\n' :: cs => acc.reverse :: splitlines_aux fuel [] cs
    | '\r' :: cs => acc.reverse :: splitlines_aux fuel [] cs
    | '\n' :: cs => acc.reverse :: splitlines_aux fuel [] cs
    | c :: cs => splitlines_aux fuel (c :: acc) cs

def py_splitlines (s : String) : List String :=
  (splitlines_aux (s.data.length + 1) [] s.data).map (fun l => ⟨l⟩)

/-- `_wrap_line_to_width(raw_line, max_chars)`.  `raw_line.split(" ")`
keeps empty fields; `_append_long_word` contributes all chunks but the
last to `lines` and leaves the last as the running line. -/
def wrap_line_to_width (raw_line : String) (max_chars : ℕ) : List String :=
  if max_chars ≤ 1 then
    (if raw_line = "" then [""] else raw_line.data.map (fun c => (⟨[c]⟩ : String)))
  else
    let step := fun (st : List String × String) (word : String) =>
      let lines := st.1
      let current := st.2
      if current = "" then
        if word.length ≤ max_chars then (lines, word)
        else
          let chunks := chunk_chars max_chars word.data
          (lines ++ (chunks.dropLast.map (fun l => (⟨l⟩ : String))),
           (⟨(chunks.getLast?.getD [])⟩ : String))
      else
        let candidate := current ++ " " ++ word
        if candidate.length ≤ max_chars then (lines, candidate)
        else
          let lines2 := lines ++ [current]
          if word.length ≤ max_chars then (lines2, word)
          else
            let chunks := chunk_chars max_chars word.data
            (lines2 ++ (chunks.dropLast.map (fun l => (⟨l⟩ : String))),
             (⟨(chunks.getLast?.getD [])⟩ : String))
    let res := (py_split_on raw_line " ").foldl step ([], "")
    res.1 ++ [res.2]

/-- `_estimate_text_panel_size(text, font_size)`: estimated (width, height)
in pixels from the `.ai-ar-panel` layout constants (`0.56` is `14/25`,
`1.6` is `8/5`, `4.5` is `9/2`). -/
def estimate_text_panel_size (text : String) (font_size : ℤ) : ℤ × ℤ :=
  let safe_font_size : ℤ := max (if font_size = 0 then 18 else font_size) 10
  let content_max_width : ℤ := max (320 - 40) 40
  let char_width : ℚ := max ((safe_font_size : ℚ) * (14/25)) (9/2)
  let max_chars_per_line : ℤ := max 1 ⌊(content_max_width : ℚ) / char_width⌋
  let raw_lines := (let ls := py_splitlines text; if ls.isEmpty then [""] else ls)
  let wrapped := raw_lines.flatMap (fun raw => wrap_line_to_width raw max_chars_per_line.toNat)
  let wrapped_lines := if wrapped.isEmpty then [""] else wrapped
  let line_count : ℤ := max (wrapped_lines.length : ℤ) 1
  let longest_line_chars : ℤ := ((wrapped_lines.map (fun l => (l.length : ℤ))).maximum?).getD 1
  let content_width : ℚ := min (content_max_width : ℚ)
    (max (char_width * (max (longest_line_chars : ℚ) 2)) 24)
  let line_height : ℚ := max ((safe_font_size : ℚ) * (8/5)) ((safe_font_size : ℚ) + 4)
  let content_height : ℚ := max ((line_count : ℚ) * line_height) line_height
  let panel_width : ℤ := py_round (clamp (content_width + 40 + 8) 96 320)
  let panel_height : ℤ := py_round (max (content_height + 32 + 16) 44)
  (panel_width, panel_height)

/-- An absolute panel rectangle `(left, top, right, bottom)`. -/
structure Rect where
  left : ℚ
  top : ℚ
  right : ℚ
  bottom : ℚ
deriving DecidableEq

/-- `_anchor_to_rect(...)`: resolved (x, y) anchor and the clamped panel
rectangle. -/
def anchor_to_rect (anchor_x anchor_y : ℚ) (panel_width panel_height : ℤ)
    (align baseline : String) (viewport_width viewport_height : ℤ) :
    ℤ × ℤ × Rect :=
  let pw : ℚ := (panel_width : ℚ)
  let ph : ℚ := (panel_height : ℚ)
  let left :=
    if align = "center" then anchor_x - pw / 2
    else if align = "right" then anchor_x - pw
    else anchor_x
  let top :=
    if baseline = "middle" then anchor_y - ph / 2
    else if baseline = "bottom" then anchor_y - ph
    else anchor_y
  let horizontal_margin : ℚ :=
    if pw + 2 * 8 > (viewport_width : ℚ) then 0 else 8
  let vertical_margin : ℚ :=
    if ph + 2 * 8 > (viewport_height : ℚ) then 0 else 8
  let min_left := horizontal_margin
  let min_top := vertical_margin
  let max_left := max ((viewport_width : ℚ) - pw - horizontal_margin) min_left
  let max_top := max ((viewport_height : ℚ) - ph - vertical_margin) min_top
  let clamped_left := clamp left min_left max_left
  let clamped_top := clamp top min_top max_top
  let resolved_x :=
    if align = "center" then clamped_left + pw / 2
    else if align = "right" then clamped_left + pw
    else clamped_left
  let resolved_y :=
    if baseline = "middle" then clamped_top + ph / 2
    else if baseline = "bottom" then clamped_top + ph
    else clamped_top
  (py_round resolved_x, py_round resolved_y,
   ⟨clamped_left, clamped_top, clamped_left + pw, clamped_top + ph⟩)

/-- `_rects_overlap(rect_a, rect_b, buffer)`. -/
def rects_overlap (a b : Rect) (buffer : ℚ) : Bool :=
  decide (a.left < b.right - buffer) && decide (a.right > b.left + buffer)
    && decide (a.top < b.bottom - buffer) && decide (a.bottom > b.top + buffer)

/-- `_intersection_area(rect_a, rect_b)`. -/
def intersection_area (a b : Rect) : ℚ :=
  (max 0 (min a.right b.right - max a.left b.left))
    * (max 0 (min a.bottom b.bottom - max a.top b.top))

/-- The `if ignore_text_id and other_id == ignore_text_id: continue` test. -/
def cache_entry_ignored (ignore : Option String) (other_id : String) : Bool :=
  match ignore with
  | some i => i ≠ "" && other_id = i
  | none => false

/-- `_has_text_overlap(rect, ignore_text_id)` against a cache snapshot
(buffer `_TEXT_OVERLAP_BUFFER_PX = 0`). -/
def has_text_overlap (cache : List (String × Rect)) (rect : Rect)
    (ignore : Option String) : Bool :=
  cache.any (fun p => ! cache_entry_ignored ignore p.1 && rects_overlap rect p.2 0)

/-- `_overlap_score(rect, ignore_text_id)`: total intersection area. -/
def overlap_score (cache : List (String × Rect)) (rect : Rect)
    (ignore : Option String) : ℚ :=
  (cache.filter (fun p => ! cache_entry_ignored ignore p.1)).foldl
    (fun acc p => acc + intersection_area rect p.2) 0

/-- The 12 candidate offsets of one ring at distance `delta`. -/
def ring_offsets (delta : ℤ) : List (ℤ × ℤ) :=
  [(0, -delta), (0, delta), (delta, 0), (-delta, 0),
   (delta, -delta), (-delta, -delta), (delta, delta), (-delta, delta),
   (2 * delta, 0), (-2 * delta, 0), (0, 2 * delta), (0, -2 * delta)]

/-- All candidate offsets: rings `1..10` on the 28-px grid, in scan
order. -/
def all_ring_offsets : List (ℤ × ℤ) :=
  (List.range 10).flatMap (fun r => ring_offsets (((r : ℤ) + 1) * 28))

/-- A resolved placement: anchor coordinates plus the panel rectangle. -/
structure Placement where
  x : ℤ
  y : ℤ
  rect : Rect
deriving DecidableEq

/-- The inputs of `_resolve_non_overlapping_anchor` after its prelude:
cache snapshot, requested anchor, estimated panel size, normalized
alignment, viewport size, and the ignored text id. -/
structure ResolveCtx where
  cache : List (String × Rect)
  anchor_x : ℤ
  anchor_y : ℤ
  panel_w : ℤ
  panel_h : ℤ
  align : String
  baseline : String
  vw : ℤ
  vh : ℤ
  ignore : Option String

/-- The candidate placement at offset `o` from the requested anchor. -/
def ctx_candidate (ctx : ResolveCtx) (o : ℤ × ℤ) : Placement :=
  let r := anchor_to_rect ((ctx.anchor_x + o.1 : ℤ) : ℚ) ((ctx.anchor_y + o.2 : ℤ) : ℚ)
    ctx.panel_w ctx.panel_h ctx.align ctx.baseline ctx.vw ctx.vh
  ⟨r.1, r.2.1, r.2.2⟩

def ctx_score (ctx : ResolveCtx) (p : Placement) : ℚ :=
  overlap_score ctx.cache p.rect ctx.ignore

/-- The ring scan of `_resolve_non_overlapping_anchor`: return the first
non-overlapping candidate, else track the best `(score, distance)` pair
(strict lexicographic improvement, ties keep the earlier candidate). -/
def scan_offsets (ctx : ResolveCtx) :
    Placement → ℚ → ℤ → List (ℤ × ℤ) → Placement
  | best, _, _, [] => best
  | best, best_score, best_dist, o :: rest =>
    let cand := ctx_candidate ctx o
    if has_text_overlap ctx.cache cand.rect ctx.ignore = false then cand
    else
      let score := overlap_score ctx.cache cand.rect ctx.ignore
      let dist := |o.1| + |o.2|
      if score < best_score ∨ (score = best_score ∧ dist < best_dist) then
        scan_offsets ctx cand score dist rest
      else
        scan_offsets ctx best best_score best_dist rest

/-- `_resolve_non_overlapping_anchor` from the prepared context: the base
placement if free, else the ring scan seeded with the base at distance 0. -/
def resolve_non_overlapping_anchor (ctx : ResolveCtx) : Placement :=
  let base := ctx_candidate ctx (0, 0)
  if has_text_overlap ctx.cache base.rect ctx.ignore = false then base
  else scan_offsets ctx base (overlap_score ctx.cache base.rect ctx.ignore) 0
    all_ring_offsets

/-- The context `_resolve_non_overlapping_anchor(anchor_x, anchor_y, text,
font_size, align, baseline, text_id)` prepares from its raw arguments. -/
def make_resolve_ctx (cache : List (String × Rect)) (vw vh : ℤ)
    (anchor_x anchor_y : ℤ) (text : String) (font_size : ℤ)
    (align baseline : Option String) (text_id : Option String) : ResolveCtx :=
  { cache := cache, anchor_x := anchor_x, anchor_y := anchor_y,
    panel_w := (estimate_text_panel_size text font_size).1,
    panel_h := (estimate_text_panel_size text font_size).2,
    align := normalize_align align, baseline := normalize_baseline baseline,
    vw := vw, vh := vh, ignore := text_id }

/-- Some base-anchor or ring candidate is overlap-free. -/
def free_placement_exists (ctx : ResolveCtx) : Prop :=
  has_text_overlap ctx.cache (ctx_candidate ctx (0, 0)).rect ctx.ignore = false
  ∨ ∃ o ∈ all_ring_offsets,
      has_text_overlap ctx.cache (ctx_candidate ctx o).rect ctx.ignore = false

/-- `int(font_size or 18)` as applied by `_create_text_non_overlapping`. -/
def resolved_font_size (font_size : Option ℤ) : ℤ :=
  match font_size with
  | none => 18
  | some f => if f = 0 then 18 else f

/-- `text_id or f"text_{uuid4().hex[:8]}"` with the uuid hex as oracle. -/
def resolved_text_id_of (text_id : Option String) (uuid_id : String) : String :=
  py_str_or text_id ("text_" ++ uuid_id)

/-- The resolve context `_create_text_non_overlapping` prepares. -/
def create_text_resolve_ctx (cache : List (String × Rect)) (vw vh : ℤ)
    (x y : ℤ) (text : String) (font_size : Option ℤ)
    (align baseline text_id : Option String) (uuid_id : String) : ResolveCtx :=
  make_resolve_ctx cache vw vh x y text (resolved_font_size font_size)
    align baseline (some (resolved_text_id_of text_id uuid_id))

/-- `_create_text_non_overlapping(...)`: resolve the anchor and record the
rectangle in the live cache under the created id (a dict assignment:
replace or insert). -/
def create_text_non_overlapping (cache : List (String × Rect)) (vw vh : ℤ)
    (x y : ℤ) (text : String) (font_size : Option ℤ)
    (align baseline text_id : Option String) (uuid_id : String) :
    Placement × List (String × Rect) :=
  let resolved_text_id := resolved_text_id_of text_id uuid_id
  let p := resolve_non_overlapping_anchor
    (create_text_resolve_ctx cache vw vh x y text font_size align baseline text_id uuid_id)
  (p, (cache.filter (fun q => q.1 ≠ resolved_text_id)) ++ [(resolved_text_id, p.rect)])

/-- Pairwise non-overlap (buffer 0) of the rectangles in the cache. -/
def cache_pairwise_free (cache : List (String × Rect)) : Prop :=
  List.Pairwise (fun a b => rects_overlap a.2 b.2 0 = false) cache

/-! ## Helper lemmas -/

lemma is_positioning_tool_not_click {a : String}
    (h : is_positioning_tool a = true) : is_click_tool a = false := by
  simp only [is_positioning_tool, POSITIONING_TOOL_NAMES, decide_eq_true_eq,
    List.mem_cons, List.mem_singleton, List.not_mem_nil, or_false] at h
  rcases h with h | h <;> subst h <;> decide

lemma complete_not_click : is_click_tool "task_is_complete" = false := by
  decide

lemma router_chain_loop_shape
    (route : ℕ → Option RoutingDict) (run judge : ℕ → RoutingDict → AgentOutcome)
    (user_prompt : String) :
    ∀ (fuel idx : ℕ) (cs : List ChainStep) (seen : (String × String) → ℕ),
      ∃ pre text,
        router_chain_loop route run judge user_prompt fuel idx cs seen
          = pre ++ [SessionEvent.directResponse text]
        ∧ (∀ e ∈ pre, is_step_event e = true)
        ∧ pre.length ≤ fuel := by
  intro fuel
  induction fuel with
  | zero =>
    intro idx cs seen
    exact ⟨[], max_step_message, rfl, by simp, by simp⟩
  | succ n ih =>
    intro idx cs seen
    simp only [router_chain_loop]
    set R := (route idx).getD invalid_shape_routing with hR
    by_cases hdir : R.agent = some "direct"
    · rw [if_pos hdir]
      exact ⟨[], _, rfl, by simp, by simp⟩
    · rw [if_neg hdir]
      by_cases hrep : REPEATED_STEP_LIMIT ≤ seen (routing_signature R) + 1
      · rw [if_pos hrep]
        exact ⟨[], _, rfl, by simp, by simp⟩
      · rw [if_neg hrep]
        have key : ∀ (step : ChainStep) (ftext : String),
            ∃ pre text,
              (SessionEvent.stepExec (routing_signature R) step ::
                (if step.success = true then
                  router_chain_loop route run judge user_prompt n (idx + 1)
                    (cs ++ [step]) (bump_signature seen (routing_signature R))
                else [SessionEvent.directResponse ftext]))
                = pre ++ [SessionEvent.directResponse text]
              ∧ (∀ e ∈ pre, is_step_event e = true)
              ∧ pre.length ≤ n + 1 := by
          intro step ftext
          by_cases hok : step.success = true
          · rw [if_pos hok]
            obtain ⟨pre, text, heq, hsteps, hlen⟩ :=
              ih (idx + 1) (cs ++ [step]) (bump_signature seen (routing_signature R))
            refine ⟨SessionEvent.stepExec (routing_signature R) step :: pre, text, ?_, ?_, ?_⟩
            · rw [heq]
              rfl
            · intro e he
              rcases List.mem_cons.mp he with h | h
              · rw [h]
                rfl
              · exact hsteps e h
            · simp only [List.length_cons]
              omega
          · rw [if_neg hok]
            refine ⟨[SessionEvent.stepExec (routing_signature R) step], ftext, rfl, ?_, ?_⟩
            · intro e he
              rcases List.mem_cons.mp he with h | h
              · rw [h]
                rfl
              · exact absurd h (List.not_mem_nil e)
            · simp
        by_cases hsc : R.agent = some "screen_context"
        · rw [if_pos hsc]
          exact key _ _
        · rw [if_neg hsc]
          exact key _ _

lemma router_chain_loop_sig_bound
    (route : ℕ → Option RoutingDict) (run judge : ℕ → RoutingDict → AgentOutcome)
    (user_prompt : String) (sig : String × String) :
    ∀ (fuel idx : ℕ) (cs : List ChainStep) (seen : (String × String) → ℕ),
      sig_step_count (router_chain_loop route run judge user_prompt fuel idx cs seen) sig
        + min (seen sig) 2 ≤ 2 := by
  intro fuel
  induction fuel with
  | zero =>
    intro idx cs seen
    have h0 : sig_step_count [SessionEvent.directResponse max_step_message] sig = 0 := by
      simp [sig_step_count, List.countP_cons, List.countP_nil, is_sig_step]
    rw [router_chain_loop, h0]
    omega
  | succ n ih =>
    intro idx cs seen
    simp only [router_chain_loop]
    set R := (route idx).getD invalid_shape_routing with hR
    by_cases hdir : R.agent = some "direct"
    · rw [if_pos hdir]
      have h0 : sig_step_count
          [SessionEvent.directResponse (router_direct_text user_prompt cs R)] sig = 0 := by
        simp [sig_step_count, List.countP_cons, List.countP_nil, is_sig_step]
      rw [h0]
      omega
    · rw [if_neg hdir]
      by_cases hrep : REPEATED_STEP_LIMIT ≤ seen (routing_signature R) + 1
      · rw [if_pos hrep]
        have h0 : sig_step_count [SessionEvent.directResponse repeated_step_message] sig = 0 := by
          simp [sig_step_count, List.countP_cons, List.countP_nil, is_sig_step]
        rw [h0]
        omega
      · rw [if_neg hrep]
        have hlt : seen (routing_signature R) + 1 < 3 := by
          have : ¬ (3 ≤ seen (routing_signature R) + 1) := hrep
          omega
        have key : ∀ (step : ChainStep) (ftext : String),
            sig_step_count
              (SessionEvent.stepExec (routing_signature R) step ::
                (if step.success = true then
                  router_chain_loop route run judge user_prompt n (idx + 1)
                    (cs ++ [step]) (bump_signature seen (routing_signature R))
                else [SessionEvent.directResponse ftext])) sig
              + min (seen sig) 2 ≤ 2 := by
          intro step ftext
          rw [sig_step_count, List.countP_cons]
          by_cases hss : routing_signature R = sig
          · have hhead : is_sig_step sig (SessionEvent.stepExec (routing_signature R) step)
                = true := by
              simp [is_sig_step, hss]
            simp only [hhead, eq_self_iff_true, if_true]
            have hlt2 : seen sig + 1 < 3 := by
              rw [← hss]
              exact hlt
            by_cases hok : step.success = true
            · rw [if_pos hok]
              have hIH := ih (idx + 1) (cs ++ [step]) (bump_signature seen (routing_signature R))
              have hbump : bump_signature seen (routing_signature R) sig = seen sig + 1 := by
                simp [bump_signature, hss]
              rw [hbump] at hIH
              rw [sig_step_count] at hIH
              omega
            · rw [if_neg hok]
              have h0 : List.countP (is_sig_step sig)
                  [SessionEvent.directResponse ftext] = 0 := by
                simp [List.countP_cons, List.countP_nil, is_sig_step]
              rw [h0]
              omega
          · have hhead : is_sig_step sig (SessionEvent.stepExec (routing_signature R) step)
                = false := by
              simp [is_sig_step, hss]
            simp only [hhead, Bool.false_eq_true, if_false]
            by_cases hok : step.success = true
            · rw [if_pos hok]
              have hIH := ih (idx + 1) (cs ++ [step]) (bump_signature seen (routing_signature R))
              have hbump : bump_signature seen (routing_signature R) sig = seen sig := by
                have hss2 : ¬ (sig = routing_signature R) := fun h => hss h.symm
                simp [bump_signature, hss2]
              rw [hbump] at hIH
              rw [sig_step_count] at hIH
              omega
            · rw [if_neg hok]
              have h0 : List.countP (is_sig_step sig)
                  [SessionEvent.directResponse ftext] = 0 := by
                simp [List.countP_cons, List.countP_nil, is_sig_step]
              rw [h0]
              omega
        by_cases hsc : R.agent = some "screen_context"
        · rw [if_pos hsc]
          exact key _ _
        · rw [if_neg hsc]
          exact key _ _

lemma router_loop_const_repeat
    (route : ℕ → Option RoutingDict) (run judge : ℕ → RoutingDict → AgentOutcome)
    (user_prompt : String) (rd : RoutingDict)
    (hroute : ∀ i, route i = some rd)
    (hdir : rd.agent ≠ some "direct")
    (hsc : rd.agent ≠ some "screen_context")
    (hsucc : ∀ i, (run_routed_agent_step (run i rd) rd).success = true) :
    ∀ (fuel idx : ℕ) (cs : List ChainStep) (seen : (String × String) → ℕ),
      seen (routing_signature rd) = 0 →
      router_chain_loop route run judge user_prompt (fuel + 3) idx cs seen
        = [SessionEvent.stepExec (routing_signature rd)
             (run_routed_agent_step (run idx rd) rd),
           SessionEvent.stepExec (routing_signature rd)
             (run_routed_agent_step (run (idx + 1) rd) rd),
           SessionEvent.directResponse repeated_step_message] := by
  intro fuel idx cs seen h0
  rw [show fuel + 3 = (fuel + 2) + 1 from rfl]
  simp only [router_chain_loop]
  simp [hroute, hdir, hsc, hsucc, bump_signature, h0, REPEATED_STEP_LIMIT]

lemma rects_overlap_comm (a b : Rect) : rects_overlap a b 0 = rects_overlap b a 0 := by
  simp only [rects_overlap, sub_zero, add_zero, gt_iff_lt]
  by_cases h1 : a.left < b.right <;> by_cases h2 : b.left < a.right <;>
    by_cases h3 : a.top < b.bottom <;> by_cases h4 : b.top < a.bottom <;>
    simp [h1, h2, h3, h4]

lemma has_text_overlap_false_mem {cache : List (String × Rect)} {rect : Rect}
    {ignore : Option String}
    (h : has_text_overlap cache rect ignore = false) :
    ∀ p ∈ cache, cache_entry_ignored ignore p.1 = false →
      rects_overlap rect p.2 0 = false := by
  intro p hp hig
  cases hval : rects_overlap rect p.2 0
  · rfl
  · have htrue : has_text_overlap cache rect ignore = true := by
      unfold has_text_overlap
      rw [List.any_eq_true]
      refine ⟨p, hp, ?_⟩
      rw [hig, hval]
      rfl
    rw [h] at htrue
    exact absurd htrue Bool.false_ne_true

lemma scan_offsets_free (ctx : ResolveCtx) :
    ∀ (l : List (ℤ × ℤ)) (best : Placement) (bs : ℚ) (bd : ℤ),
      (∃ o ∈ l, has_text_overlap ctx.cache (ctx_candidate ctx o).rect ctx.ignore = false) →
      has_text_overlap ctx.cache (scan_offsets ctx best bs bd l).rect ctx.ignore
        = false := by
  intro l
  induction l with
  | nil =>
    intro best bs bd h
    exact absurd h (by simp)
  | cons o rest ih =>
    intro best bs bd h
    simp only [scan_offsets]
    by_cases hfree : has_text_overlap ctx.cache (ctx_candidate ctx o).rect ctx.ignore
        = false
    · rw [if_pos hfree]
      exact hfree
    · rw [if_neg hfree]
      have hrest : ∃ o2 ∈ rest,
          has_text_overlap ctx.cache (ctx_candidate ctx o2).rect ctx.ignore = false := by
        rcases h with ⟨o2, ho2, hfree2⟩
        rcases List.mem_cons.mp ho2 with he | hm
        · exact absurd (he ▸ hfree2) hfree
        · exact ⟨o2, hm, hfree2⟩
      by_cases hc : overlap_score ctx.cache (ctx_candidate ctx o).rect ctx.ignore < bs
          ∨ (overlap_score ctx.cache (ctx_candidate ctx o).rect ctx.ignore = bs
              ∧ |o.1| + |o.2| < bd)
      · rw [if_pos hc]
        exact ih _ _ _ hrest
      · rw [if_neg hc]
        exact ih _ _ _ hrest

lemma scan_offsets_min (ctx : ResolveCtx) :
    ∀ (l : List (ℤ × ℤ)) (best : Placement) (bs : ℚ) (bd : ℤ),
      bs = ctx_score ctx best →
      (∀ o ∈ l, has_text_overlap ctx.cache (ctx_candidate ctx o).rect ctx.ignore = true) →
      ∃ d : ℤ,
        ((scan_offsets ctx best bs bd l = best ∧ d = bd)
          ∨ ∃ o ∈ l, scan_offsets ctx best bs bd l = ctx_candidate ctx o
              ∧ d = |o.1| + |o.2|)
        ∧ ctx_score ctx (scan_offsets ctx best bs bd l) ≤ bs
        ∧ (ctx_score ctx (scan_offsets ctx best bs bd l) = bs → d ≤ bd)
        ∧ (∀ o ∈ l,
            ctx_score ctx (scan_offsets ctx best bs bd l)
              ≤ ctx_score ctx (ctx_candidate ctx o)
            ∧ (ctx_score ctx (scan_offsets ctx best bs bd l)
                = ctx_score ctx (ctx_candidate ctx o) → d ≤ |o.1| + |o.2|)) := by
  intro l
  induction l with
  | nil =>
    intro best bs bd hbs hall
    simp only [scan_offsets]
    exact ⟨bd, Or.inl ⟨trivial, rfl⟩, le_of_eq hbs.symm, fun _ => le_refl bd,
      fun o ho => absurd ho (List.not_mem_nil o)⟩
  | cons o rest ih =>
    intro best bs bd hbs hall
    have hov : has_text_overlap ctx.cache (ctx_candidate ctx o).rect ctx.ignore = true :=
      hall o (List.mem_cons_self o rest)
    have hso2 : ctx_score ctx (ctx_candidate ctx o)
        = overlap_score ctx.cache (ctx_candidate ctx o).rect ctx.ignore := rfl
    have hrest : ∀ o2 ∈ rest,
        has_text_overlap ctx.cache (ctx_candidate ctx o2).rect ctx.ignore = true :=
      fun o2 h2 => hall o2 (List.mem_cons_of_mem o h2)
    simp only [scan_offsets]
    rw [if_neg (by simp [hov])]
    by_cases hc : overlap_score ctx.cache (ctx_candidate ctx o).rect ctx.ignore < bs
        ∨ (overlap_score ctx.cache (ctx_candidate ctx o).rect ctx.ignore = bs
            ∧ |o.1| + |o.2| < bd)
    · rw [if_pos hc]
      obtain ⟨d, hcase, hle, heq, hfor⟩ := ih (ctx_candidate ctx o)
        (overlap_score ctx.cache (ctx_candidate ctx o).rect ctx.ignore)
        (|o.1| + |o.2|) hso2.symm hrest
      refine ⟨d, ?_, ?_, ?_, ?_⟩
      · rcases hcase with ⟨hres, hd⟩ | ⟨o2, ho2, hres, hd⟩
        · exact Or.inr ⟨o, List.mem_cons_self o rest, hres, hd⟩
        · exact Or.inr ⟨o2, List.mem_cons_of_mem o ho2, hres, hd⟩
      · rcases hc with h1 | ⟨h1, h2⟩
        · exact le_trans hle (le_of_lt h1)
        · exact le_trans hle (le_of_eq h1)
      · intro hseq
        rcases hc with h1 | ⟨h1, h2⟩
        · exact absurd hseq (ne_of_lt (lt_of_le_of_lt hle h1))
        · exact le_trans (heq (hseq.trans h1.symm)) (le_of_lt h2)
      · intro o2 ho2
        rcases List.mem_cons.mp ho2 with he | hm
        · subst he
          refine ⟨le_of_le_of_eq hle hso2.symm, ?_⟩
          intro hseq
          exact heq (hseq.trans hso2)
        · exact hfor o2 hm
    · rw [if_neg hc]
      push_neg at hc
      obtain ⟨d, hcase, hle, heq, hfor⟩ := ih best bs bd hbs hrest
      refine ⟨d, ?_, hle, heq, ?_⟩
      · rcases hcase with ⟨hres, hd⟩ | ⟨o2, ho2, hres, hd⟩
        · exact Or.inl ⟨hres, hd⟩
        · exact Or.inr ⟨o2, List.mem_cons_of_mem o ho2, hres, hd⟩
      · intro o2 ho2
        rcases List.mem_cons.mp ho2 with he | hm
        · subst he
          have hbs_le : bs ≤ overlap_score ctx.cache (ctx_candidate ctx o2).rect ctx.ignore :=
            hc.1
          refine ⟨le_trans hle (le_of_le_of_eq hbs_le hso2.symm), ?_⟩
          intro hseq
          have h3 : ctx_score ctx (scan_offsets ctx best bs bd rest)
              = overlap_score ctx.cache (ctx_candidate ctx o2).rect ctx.ignore :=
            hseq.trans hso2
          have h4 : overlap_score ctx.cache (ctx_candidate ctx o2).rect ctx.ignore = bs :=
            le_antisymm (h3 ▸ hle) hbs_le
          have h5 : bd ≤ |o2.1| + |o2.2| := hc.2 h4
          exact le_trans (heq (h3.trans h4)) h5
        · exact hfor o2 hm

lemma append_singleton_ne (l : List String) (x : String) : l ++ [x] ≠ l := by
  intro h
  have := congrArg List.length h
  simp at this

lemma clean_text_length_le (v : Option String) (fb : String) (maxLen : ℕ)
    (hfb : fb.length ≤ maxLen) (h3 : 3 ≤ maxLen) :
    (clean_text v fb maxLen).length ≤ maxLen := by
  rcases v with _ | s
  · simpa [clean_text] using hfb
  · simp only [clean_text]
    by_cases h0 : normalize_ws s = ""
    · simp [h0, hfb]
    · rw [if_neg h0]
      by_cases hlen : maxLen < (normalize_ws s).length
      · rw [if_pos hlen]
        have h1 : (py_take (normalize_ws s) (maxLen - 3)).length ≤ maxLen - 3 := by
          show ((normalize_ws s).data.take (maxLen - 3)).length ≤ maxLen - 3
          simp
        have happ : ((py_take (normalize_ws s) (maxLen - 3)) ++ "...").length
            = (py_take (normalize_ws s) (maxLen - 3)).length + 3 := by
          rw [String.length_append]
          rfl
        omega
      · rw [if_neg hlen]
        omega

lemma successful_step_messages_nil_of_isEmpty {steps : List ChainStep}
    (h : (steps.filter (fun s => s.success)).isEmpty = true) :
    successful_step_messages steps = [] := by
  rw [List.isEmpty_iff] at h
  unfold successful_step_messages
  rw [h]
  rfl

lemma getD_append_pair (ms : List String) (x y : String) :
    (ms ++ [x, y]).getD ms.length "" = x
    ∧ (ms ++ [x, y]).getD (ms.length + 1) "" = y := by
  induction ms with
  | nil => exact ⟨rfl, rfl⟩
  | cons a t ih => simpa [List.getD_cons_succ] using ih

/-! ## Theorems for claims C10, C4, C5 -/

/-- C10: the stored pre-overlay screenshot is one-shot.  Every call of
`get_stored_screenshot` clears the slot, so the screenshot captured by
`store_screenshot` is handed to at most one caller: the first call after a
store returns the stored image, and an immediately following call returns
the fresh grab instead. -/
theorem get_stored_screenshot_one_shot :
    ∀ (s : ScreenshotSlot) (g₁ g₂ img : Screenshot),
      (get_stored_screenshot g₁ s).2.stored = none
      ∧ (get_stored_screenshot g₂ (get_stored_screenshot g₁ s).2).1 = g₂
      ∧ (get_stored_screenshot g₁ (store_screenshot img s).2).1 = img :=
  fun _ _ _ _ => ⟨rfl, rfl, rfl⟩

/-- C4, counterexample: the claimed band idempotence fails on the code.
`denormalize` has no ratio band: a value in `[0, 1]` passed as a ratio is
divided by 1000 like any value in `[0, 1000]`, so it does not agree with
the same value pre-multiplied by 1000; and for both functions a value in
`[0, 1000]` passed directly disagrees with passing `x / 1000 * size` when
that pixel value lands back inside `[0, 1000]`. -/
theorem coordinate_bands_counterexample :
    (denormalize 1000 1000 (1/2) 0).1 = 0
    ∧ (denormalize 1000 1000 500 0).1 = 500
    ∧ (denormalize 1000 1000 (1/2) 0).1 ≠ (denormalize 1000 1000 500 0).1
    ∧ to_pixels 500 2000 = 1000
    ∧ to_pixels (500 / 1000 * 2000) 2000 = 2000
    ∧ to_pixels 500 2000 ≠ to_pixels (500 / 1000 * 2000) 2000 := by
  refine ⟨?_, ?_, ?_, ?_, ?_, ?_⟩ <;>
    norm_num [denormalize, to_pixels, py_int]

/-- C4, amended: `_to_pixels` treats `[0, 1]` as a ratio, `(1, 1000]` as
normalized by 1000, and anything else as absolute pixels; on `[0, 1]` it
agrees with the value pre-multiplied by 1000 whenever the pre-multiplied
value exceeds 1.  `denormalize` has no ratio band: every value in
`[0, 1000]` (including `[0, 1]`) is normalized by 1000 and truncated to an
integer pixel, and values outside `[0, 1000]` pass through as absolute
pixels. -/
theorem coordinate_bands_amended :
    (∀ v size : ℚ, 0 ≤ v → v ≤ 1 → to_pixels v size = v * size)
    ∧ (∀ v size : ℚ, 1 < v → v ≤ 1000 → to_pixels v size = v / 1000 * size)
    ∧ (∀ v size : ℚ, v < 0 ∨ 1000 < v → to_pixels v size = v)
    ∧ (∀ v size : ℚ, 0 ≤ v → v ≤ 1 → 1 < 1000 * v →
        to_pixels v size = to_pixels (1000 * v) size)
    ∧ (∀ w h x y : ℚ, 0 ≤ x → x ≤ 1000 →
        (denormalize w h x y).1 = ((py_int (x / 1000 * w) : ℤ) : ℚ))
    ∧ (∀ w h x y : ℚ, x < 0 ∨ 1000 < x → (denormalize w h x y).1 = x) := by
  refine ⟨?_, ?_, ?_, ?_, ?_, ?_⟩
  · intro v size h0 h1
    simp [to_pixels, h0, h1]
  · intro v size h1 h1000
    have h0 : (0:ℚ) ≤ v := by linarith
    have hnot : ¬ (v ≤ 1) := by linarith
    simp [to_pixels, h0, h1000, hnot]
  · intro v size h
    rcases h with h | h
    · have h1 : ¬ ((0:ℚ) ≤ v) := by linarith
      simp [to_pixels, h1]
    · have h1 : ¬ (v ≤ (1:ℚ)) := by linarith
      have h2 : ¬ (v ≤ (1000:ℚ)) := by linarith
      simp [to_pixels, h1, h2]
  · intro v size h0 h1 hgt
    have ha : to_pixels v size = v * size := by simp [to_pixels, h0, h1]
    have hb0 : (0:ℚ) ≤ 1000 * v := by linarith
    have hb1 : ¬ (1000 * v ≤ 1) := by linarith
    have hb2 : 1000 * v ≤ 1000 := by linarith
    have hb : to_pixels (1000 * v) size = (1000 * v) / 1000 * size := by
      simp [to_pixels, hb0, hb1, hb2]
    rw [ha, hb]
    ring
  · intro w h x y h0 h1000
    simp [denormalize, h0, h1000]
  · intro w h x y hx
    rcases hx with hx | hx
    · have h1 : ¬ ((0:ℚ) ≤ x) := by linarith
      simp [denormalize, h1]
    · have h1 : ¬ (x ≤ (1000:ℚ)) := by linarith
      simp [denormalize, h1]

/-- Witness for `coordinate_bands_amended` at concrete inputs. -/
theorem coordinate_bands_amended_witness :
    to_pixels (1/2) 800 = 400
    ∧ to_pixels 250 800 = 200
    ∧ to_pixels 2000 800 = 2000
    ∧ to_pixels (1/2) 800 = to_pixels 500 800
    ∧ (denormalize 1000 600 250 0).1 = 250
    ∧ (denormalize 1000 600 1500 0).1 = 1500 := by
  obtain ⟨h1, h2, h3, h4, h5, h6⟩ := coordinate_bands_amended
  refine ⟨?_, ?_, ?_, ?_, ?_, ?_⟩
  · rw [h1 (1/2) 800 (by norm_num) (by norm_num)]; norm_num
  · rw [h2 250 800 (by norm_num) (by norm_num)]; norm_num
  · exact h3 2000 800 (Or.inr (by norm_num))
  · have := h4 (1/2) 800 (by norm_num) (by norm_num) (by norm_num)
    rw [this]; norm_num
  · rw [h5 1000 600 250 0 (by norm_num) (by norm_num)]; norm_num [py_int]
  · exact h6 1000 600 1500 0 (Or.inr (by norm_num))

/-- C5, counterexample: a click call followed by `task_is_complete` is
passed through as a two-call batch, which is none of the shapes the claim
enumerates (at most one call, positioning-click pair, or
positioning-click-complete triple). -/
theorem normalize_batch_counterexample :
    normalize_function_call_batch ["click_left_click", "task_is_complete"]
      = ["click_left_click", "task_is_complete"]
    ∧ ¬ batch_shape_claimed ["click_left_click", "task_is_complete"] := by
  constructor
  · rfl
  · rintro (h | ⟨p, c, heq, hp, hc⟩ | ⟨p, c, heq, hp, hc⟩)
    · simp at h
    · have hp1 : p = "click_left_click" := by
        have := congrArg (fun l => l.head?) heq
        simpa using this.symm
      subst hp1
      have : is_positioning_tool "click_left_click" = false := by decide
      rw [this] at hp
      exact Bool.false_ne_true hp
    · have : ([("click_left_click":String), "task_is_complete"]).length
          = ([p, c, "task_is_complete"]).length := by rw [heq]
      simp at this

/-- C5, amended: the normalized batch is always a prefix of the model's
batch (extras are dropped) and has one of the shapes: at most one call, a
positioning-click pair, a positioning-click-complete triple, or a
click-complete pair; in every case it contains at most one click call, so
never two consecutive clicks. -/
theorem normalize_batch_amended :
    ∀ calls : List String,
      (∃ n, normalize_function_call_batch calls = calls.take n)
      ∧ batch_shape_amended (normalize_function_call_batch calls)
      ∧ (normalize_function_call_batch calls).countP
          (fun c => is_click_tool c) ≤ 1 := by
  intro calls
  by_cases hlen : calls.length ≤ 1
  · have hno : normalize_function_call_batch calls = calls := by
      simp [normalize_function_call_batch, hlen]
    refine ⟨⟨calls.length, ?_⟩, ?_, ?_⟩
    · rw [hno, List.take_length]
    · exact Or.inl (Or.inl (by rw [hno]; exact hlen))
    · rw [hno]
      exact le_trans (List.countP_le_length _) hlen
  · rcases calls with _ | ⟨a, _ | ⟨b, rest⟩⟩
    · simp at hlen
    · simp at hlen
    · simp only [normalize_function_call_batch, if_neg hlen, List.headD_cons,
        List.getD_cons_succ, List.getD_cons_zero]
      split_ifs with h1 h2 h3 h4
      · refine ⟨⟨1, by subst h1; rfl⟩, Or.inl (Or.inl (by simp)), ?_⟩
        exact le_trans (List.countP_le_length _) (by simp)
      · rw [Bool.and_eq_true] at h2
        have hnca := is_positioning_tool_not_click h2.1
        rcases rest with _ | ⟨c, rest2⟩
        · exact absurd h3 (by decide)
        · have hc : c = "task_is_complete" := by simpa using h3
          subst hc
          refine ⟨⟨3, rfl⟩, ?_, ?_⟩
          · exact Or.inl (Or.inr (Or.inr ⟨a, b, rfl, h2.1, h2.2⟩))
          · show ((a :: b :: "task_is_complete" :: rest2).take 3).countP _ ≤ 1
            have ht : (a :: b :: "task_is_complete" :: rest2).take 3
                = [a, b, "task_is_complete"] := rfl
            rw [ht]
            simp [List.countP_cons, hnca, h2.2, complete_not_click]
      · rw [Bool.and_eq_true] at h2
        have hnca := is_positioning_tool_not_click h2.1
        refine ⟨⟨2, rfl⟩, ?_, ?_⟩
        · exact Or.inl (Or.inr (Or.inl ⟨a, b, rfl, h2.1, h2.2⟩))
        · have ht : (a :: b :: rest).take 2 = [a, b] := rfl
          rw [ht]
          simp [List.countP_cons, hnca, h2.2]
      · rw [Bool.and_eq_true, decide_eq_true_eq] at h4
        refine ⟨⟨2, rfl⟩, ?_, ?_⟩
        · refine Or.inr ⟨a, ?_, h4.1⟩
          rw [h4.2]
          rfl
        · have ht : (a :: b :: rest).take 2 = [a, b] := rfl
          rw [ht]
          rw [h4.2]
          simp [List.countP_cons, h4.1, complete_not_click]
      · refine ⟨⟨1, rfl⟩, Or.inl (Or.inl (by simp)), ?_⟩
        exact le_trans (List.countP_le_length _) (by simp)

/-- C9: direct-response sanitization.  For a session with at least one
chain step: when the prompt has no repeat marker and the cleaned router
text matches a known already-completed phrase, the emitted text is the
summary of the successful step messages ("Task completed." with no
successful message, "Task completed: m" with one, and
"Task completed: second-to-last Then: last" with two or more); otherwise
the router's own cleaned text, bounded to 420 characters, is emitted
unchanged. -/
theorem direct_response_sanitization (prompt text : String)
    (steps : List ChainStep) (hne : steps ≠ []) :
    (user_requested_repeat prompt = false →
      looks_like_repeat_artifact (clean_text (some text) "Task completed." 420) = true →
      finalize_direct_response_text prompt steps text = summarize_completed_steps steps)
    ∧ (user_requested_repeat prompt = true →
      finalize_direct_response_text prompt steps text
        = clean_text (some text) "Task completed." 420)
    ∧ (looks_like_repeat_artifact (clean_text (some text) "Task completed." 420) = false →
      finalize_direct_response_text prompt steps text
        = clean_text (some text) "Task completed." 420)
    ∧ (clean_text (some text) "Task completed." 420).length ≤ 420
    ∧ (successful_step_messages steps = [] →
      summarize_completed_steps steps = "Task completed.")
    ∧ (∀ m, successful_step_messages steps = [m] →
      summarize_completed_steps steps = "Task completed: " ++ m)
    ∧ (∀ ms m₂ m₁, successful_step_messages steps = ms ++ [m₂, m₁] →
      summarize_completed_steps steps
        = "Task completed: " ++ m₂ ++ " Then: " ++ m₁) := by
  have hbE : steps.isEmpty = false := by
    cases steps
    · exact absurd rfl hne
    · rfl
  refine ⟨?_, ?_, ?_, ?_, ?_, ?_, ?_⟩
  · intro hrep hart
    simp [finalize_direct_response_text, hbE, hrep, hart]
  · intro hrep
    simp [finalize_direct_response_text, hbE, hrep]
  · intro hart
    by_cases hrep : user_requested_repeat prompt = true
    · simp [finalize_direct_response_text, hbE, hrep]
    · simp [finalize_direct_response_text, hbE, hrep, hart]
  · exact clean_text_length_le _ _ _ (by decide) (by decide)
  · intro hmsgs
    unfold summarize_completed_steps
    by_cases hsucc : (steps.filter (fun s => s.success)).isEmpty
    · simp [hsucc]
    · simp [hsucc, hmsgs]
  · intro m hm
    have hsucc : (steps.filter (fun s => s.success)).isEmpty = false := by
      cases hval : (steps.filter (fun s => s.success)).isEmpty
      · rfl
      · have := successful_step_messages_nil_of_isEmpty hval
        rw [hm] at this
        exact absurd this (by simp)
    unfold summarize_completed_steps
    simp [hsucc, hm]
  · intro ms m₂ m₁ hm
    have hsucc : (steps.filter (fun s => s.success)).isEmpty = false := by
      cases hval : (steps.filter (fun s => s.success)).isEmpty
      · rfl
      · have := successful_step_messages_nil_of_isEmpty hval
        rw [hm] at this
        exact absurd this (by simp)
    have hlen : (ms ++ [m₂, m₁]).length = ms.length + 2 := by simp
    have hlen1 : ¬ ((ms ++ [m₂, m₁]).length = 1) := by
      rw [hlen]; omega
    have hgd := getD_append_pair ms m₂ m₁
    unfold summarize_completed_steps
    rw [if_neg (by rw [hsucc]; exact Bool.false_ne_true)]
    rw [hm]
    rw [if_neg (by simp)]
    rw [if_neg hlen1]
    have e2 : (ms ++ [m₂, m₁]).length - 2 = ms.length := by
      rw [hlen]; omega
    have e1 : (ms ++ [m₂, m₁]).length - 1 = ms.length + 1 := by
      rw [hlen]; omega
    rw [e2, e1, hgd.1, hgd.2]

/-- Witness for `direct_response_sanitization` at a concrete session. -/
theorem direct_response_sanitization_witness :
    finalize_direct_response_text "move the file"
        [⟨"cua_cli", "move file", true, "Moved the file to Desktop.", "cua_cli"⟩]
        "The task was already completed."
      = "Task completed: Moved the file to Desktop." := by
  have h := direct_response_sanitization "move the file"
      "The task was already completed."
      [⟨"cua_cli", "move file", true, "Moved the file to Desktop.", "cua_cli"⟩]
      (by simp)
  have h1 := h.1 (by decide) (by decide)
  have h6 := h.2.2.2.2.2.1 "Moved the file to Desktop." (by decide)
  rw [h1, h6]
  decide

/-- C1: for every router session, the event trace is some executed chain
steps followed by exactly one terminal direct response (emitted on a direct
routing result, invalid router shape, repeat-loop break, failed step, or
budget exhaustion): no step is executed after the terminal response, the
terminal response is unique, and at most `MAX_STEPS = 6` chain steps are
executed. -/
theorem router_session_terminal_shape :
    ∀ (route : ℕ → Option RoutingDict) (run judge : ℕ → RoutingDict → AgentOutcome)
      (user_prompt : String),
      (∃ pre text,
        call_gemini route run judge user_prompt
          = pre ++ [SessionEvent.directResponse text]
        ∧ (∀ e ∈ pre, is_step_event e = true)
        ∧ pre.length ≤ MAX_ROUTER_CHAIN_STEPS)
      ∧ MAX_ROUTER_CHAIN_STEPS = 6 := by
  intro route run judge user_prompt
  exact ⟨router_chain_loop_shape route run judge user_prompt
    MAX_ROUTER_CHAIN_STEPS 0 [] (fun _ => 0), rfl⟩

/-- C2: a step signature is executed at most twice per session: the
per-signature counter is incremented before execution and the session ends
with the fixed repeat-loop response instead of executing the occurrence
that brings the counter to `REPEAT_LIMIT = 3`.  Concretely, when the
router keeps returning the same delegated (non-direct, non-screen-context)
call whose execution succeeds, the session runs it exactly twice and then
emits the repeat-loop message. -/
theorem router_repeat_guard :
    (∀ (route : ℕ → Option RoutingDict) (run judge : ℕ → RoutingDict → AgentOutcome)
      (user_prompt : String) (sig : String × String),
      sig_step_count (call_gemini route run judge user_prompt) sig ≤ 2)
    ∧ (∀ (rd : RoutingDict) (run judge : ℕ → RoutingDict → AgentOutcome)
      (user_prompt : String) (route : ℕ → Option RoutingDict),
      (∀ i, route i = some rd) →
      rd.agent ≠ some "direct" →
      rd.agent ≠ some "screen_context" →
      (∀ i, (run_routed_agent_step (run i rd) rd).success = true) →
      call_gemini route run judge user_prompt
        = [SessionEvent.stepExec (routing_signature rd)
             (run_routed_agent_step (run 0 rd) rd),
           SessionEvent.stepExec (routing_signature rd)
             (run_routed_agent_step (run 1 rd) rd),
           SessionEvent.directResponse repeated_step_message]) := by
  constructor
  · intro route run judge user_prompt sig
    have h := router_chain_loop_sig_bound route run judge user_prompt sig
      MAX_ROUTER_CHAIN_STEPS 0 [] (fun _ => 0)
    simpa using h
  · intro rd run judge user_prompt route hroute hdir hsc hsucc
    have h := router_loop_const_repeat route run judge user_prompt rd
      hroute hdir hsc hsucc 3 0 [] (fun _ => 0) rfl
    exact h

/-- Witness for `router_repeat_guard`: the concrete three-fold repeated CLI
delegation executes two steps and stops with the repeat-loop message, and
its trace holds exactly two steps of that signature. -/
theorem router_repeat_guard_witness :
    call_gemini (fun _ => some repeat_example_dict)
        (fun _ _ => ⟨true, "cua_cli step completed"⟩)
        (fun _ _ => ⟨true, "context"⟩) "clone this repo"
      = [SessionEvent.stepExec (routing_signature repeat_example_dict)
           (run_routed_agent_step ⟨true, "cua_cli step completed"⟩ repeat_example_dict),
         SessionEvent.stepExec (routing_signature repeat_example_dict)
           (run_routed_agent_step ⟨true, "cua_cli step completed"⟩ repeat_example_dict),
         SessionEvent.directResponse repeated_step_message]
    ∧ sig_step_count
        (call_gemini (fun _ => some repeat_example_dict)
          (fun _ _ => ⟨true, "cua_cli step completed"⟩)
          (fun _ _ => ⟨true, "context"⟩) "clone this repo")
        (routing_signature repeat_example_dict) ≤ 2 :=
  ⟨router_repeat_guard.2 repeat_example_dict
      (fun _ _ => ⟨true, "cua_cli step completed"⟩)
      (fun _ _ => ⟨true, "context"⟩) "clone this repo"
      (fun _ => some repeat_example_dict)
      (fun _ => rfl) (by decide) (by decide)
      (fun _ => by
        show (run_routed_agent_step ⟨true, "cua_cli step completed"⟩
          repeat_example_dict).success = true
        decide),
    router_repeat_guard.1 (fun _ => some repeat_example_dict)
      (fun _ _ => ⟨true, "cua_cli step completed"⟩)
      (fun _ _ => ⟨true, "context"⟩) "clone this repo"
      (routing_signature repeat_example_dict)⟩

/-- C8: overlay-input de-duplication.  An event carrying a request id is
dropped exactly when the id is recorded in the table with a timestamp at
most 10 seconds old (only accepted events record a timestamp); every
other event with a request id invokes the handler exactly once.  Hence two
events with the same request id within 10 seconds, starting from a state
with no record for that id, produce exactly one handler invocation.  An
event without a request id is dropped exactly when its
whitespace-normalized text is non-empty, equals the previously accepted
normalized text, and arrives within 1.2 seconds of it; otherwise it
invokes the handler exactly once. -/
theorem overlay_input_dedup :
    (∀ (now : ℚ) (text rid : String) (st : OverlayInputState), rid ≠ "" →
      ((handle_overlay_input now text rid st).handler_calls = st.handler_calls
        ↔ ∃ ts, st.seen_request_ids rid = some ts ∧ now - ts ≤ 10))
    ∧ (∀ (now : ℚ) (text rid : String) (st : OverlayInputState), rid ≠ "" →
      (¬ ∃ ts, st.seen_request_ids rid = some ts ∧ now - ts ≤ 10) →
      (handle_overlay_input now text rid st).handler_calls
        = st.handler_calls ++ [text])
    ∧ (∀ (rid x₁ x₂ : String) (t₁ t₂ : ℚ) (st : OverlayInputState), rid ≠ "" →
      st.seen_request_ids rid = none → t₂ - t₁ ≤ 10 →
      ((handle_overlay_input t₂ x₂ rid
          (handle_overlay_input t₁ x₁ rid st)).handler_calls).length
        = st.handler_calls.length + 1)
    ∧ (∀ (now : ℚ) (text : String) (st : OverlayInputState),
      ((handle_overlay_input now text "" st).handler_calls = st.handler_calls
        ↔ (normalize_ws text ≠ "" ∧ normalize_ws text = st.last_overlay_text
            ∧ now - st.last_overlay_ts < 6/5)))
    ∧ (∀ (now : ℚ) (text : String) (st : OverlayInputState),
      ¬ (normalize_ws text ≠ "" ∧ normalize_ws text = st.last_overlay_text
          ∧ now - st.last_overlay_ts < 6/5) →
      (handle_overlay_input now text "" st).handler_calls
        = st.handler_calls ++ [text]) := by
  have hmem : ∀ (now : ℚ) (rid : String) (st : OverlayInputState),
      (purge_expired now st.seen_request_ids rid).isSome = true
        ↔ ∃ ts, st.seen_request_ids rid = some ts ∧ now - ts ≤ 10 := by
    intro now rid st
    rcases hval : st.seen_request_ids rid with _ | ts
    · simp [purge_expired, hval]
    · simp only [purge_expired, hval]
      by_cases hlt : now - ts > 10
      · rw [if_pos hlt]
        constructor
        · intro h
          exact absurd h (by simp)
        · rintro ⟨x, hx, hle⟩
          obtain rfl := Option.some.inj hx
          linarith
      · rw [if_neg hlt]
        constructor
        · intro _
          exact ⟨ts, rfl, le_of_not_lt hlt⟩
        · intro _
          rfl
  have haccept : ∀ (now : ℚ) (text rid : String) (st : OverlayInputState), rid ≠ "" →
      (¬ ∃ ts, st.seen_request_ids rid = some ts ∧ now - ts ≤ 10) →
      (handle_overlay_input now text rid st).handler_calls
        = st.handler_calls ++ [text] := by
    intro now text rid st hrid hno
    have hfalse : (purge_expired now st.seen_request_ids rid).isSome = false := by
      cases hval : (purge_expired now st.seen_request_ids rid).isSome
      · rfl
      · exact absurd ((hmem now rid st).mp hval) hno
    unfold handle_overlay_input
    rw [if_pos hrid]
    rw [if_neg (by rw [hfalse]; exact Bool.false_ne_true)]
  have hdropL : ∀ (now : ℚ) (text rid : String) (st : OverlayInputState), rid ≠ "" →
      (∃ ts, st.seen_request_ids rid = some ts ∧ now - ts ≤ 10) →
      (handle_overlay_input now text rid st).handler_calls = st.handler_calls := by
    intro now text rid st hrid hex
    have htrue := (hmem now rid st).mpr hex
    unfold handle_overlay_input
    rw [if_pos hrid]
    rw [if_pos htrue]
  have hseenSet : ∀ (now : ℚ) (text rid : String) (st : OverlayInputState), rid ≠ "" →
      (¬ ∃ ts, st.seen_request_ids rid = some ts ∧ now - ts ≤ 10) →
      (handle_overlay_input now text rid st).seen_request_ids rid = some now := by
    intro now text rid st hrid hno
    have hfalse : (purge_expired now st.seen_request_ids rid).isSome = false := by
      cases hval : (purge_expired now st.seen_request_ids rid).isSome
      · rfl
      · exact absurd ((hmem now rid st).mp hval) hno
    unfold handle_overlay_input
    rw [if_pos hrid]
    rw [if_neg (by rw [hfalse]; exact Bool.false_ne_true)]
    simp
  refine ⟨?_, haccept, ?_, ?_, ?_⟩
  · intro now text rid st hrid
    constructor
    · intro heq
      by_contra hno
      have := haccept now text rid st hrid hno
      rw [this] at heq
      exact append_singleton_ne _ _ heq
    · exact fun hex => hdropL now text rid st hrid hex
  · intro rid x₁ x₂ t₁ t₂ st hrid hnone hwithin
    have hno₁ : ¬ ∃ ts, st.seen_request_ids rid = some ts ∧ t₁ - ts ≤ 10 := by
      rintro ⟨ts, hts, _⟩
      rw [hnone] at hts
      exact Option.noConfusion hts
    have hstep₁ : (handle_overlay_input t₁ x₁ rid st).handler_calls
        = st.handler_calls ++ [x₁] := haccept t₁ x₁ rid st hrid hno₁
    have hseen₁ : (handle_overlay_input t₁ x₁ rid st).seen_request_ids rid
        = some t₁ := hseenSet t₁ x₁ rid st hrid hno₁
    have hdrop := hdropL t₂ x₂ rid (handle_overlay_input t₁ x₁ rid st) hrid
      ⟨t₁, hseen₁, hwithin⟩
    rw [hdrop, hstep₁]
    simp
  · intro now text st
    unfold handle_overlay_input
    rw [if_neg (by simp)]
    by_cases hcond : normalize_ws text ≠ "" ∧ normalize_ws text = st.last_overlay_text
        ∧ now - st.last_overlay_ts < 6/5
    · rw [if_pos hcond]
      exact iff_of_true rfl hcond
    · rw [if_neg hcond]
      constructor
      · intro heq
        exact absurd heq (append_singleton_ne _ _)
      · intro h
        exact absurd h hcond
  · intro now text st hno
    unfold handle_overlay_input
    rw [if_neg (by simp)]
    rw [if_neg hno]

/-- C7: `_start_background_process` always returns a success record, and
the stored Managed Background Process metadata has a positive pid, a
positive pgid, a log path present on disk, and is registered in the
process table; when the task or command mentions port numbers and one of
them becomes reachable within the 20-second poll, `active_port` is one of
the mentioned, reachable ports. -/
theorem start_background_process_record
    (env : OsEnv) (fs : List String) (table : List (String × ProcMeta))
    (command cwd task : String)
    (hpid : 0 < env.spawn_pid)
    (hpgid : ∀ g, env.getpgid_result = some g → 0 < g) :
    (start_background_process env fs table command cwd task).1.success = true
    ∧ 0 < (start_background_process env fs table command cwd task).2.1.pid
    ∧ 0 < (start_background_process env fs table command cwd task).2.1.pgid
    ∧ (start_background_process env fs table command cwd task).2.1.log_path
        ∈ (start_background_process env fs table command cwd task).2.2.1
    ∧ ((start_background_process env fs table command cwd task).2.1.id,
        (start_background_process env fs table command cwd task).2.1)
        ∈ (start_background_process env fs table command cwd task).2.2.2
    ∧ (∀ p, p ∈ extract_port_candidates (task ++ "\n" ++ command) →
        env.reach20 p = true →
        ∃ q, (start_background_process env fs table command cwd task).2.1.active_port
            = some q
          ∧ q ∈ extract_port_candidates (task ++ "\n" ++ command)
          ∧ env.reach20 q = true) := by
  refine ⟨rfl, hpid, ?_, ?_, ?_, ?_⟩
  · show 0 < (env.getpgid_result).getD env.spawn_pid
    rcases hg : env.getpgid_result with _ | g
    · simpa using hpid
    · simpa using hpgid g hg
  · show (start_background_process env fs table command cwd task).2.1.log_path
      ∈ fs ++ [env.tmp_dir ++ "/clovis_cli_bg_" ++ env.fresh_id ++ ".log"]
    simp [start_background_process]
  · show _ ∈ table ++ [((start_background_process env fs table command cwd task).2.1.id,
      (start_background_process env fs table command cwd task).2.1)]
    simp
  · intro p hp hreach
    have hne : extract_port_candidates (task ++ "\n" ++ command) ≠ [] :=
      List.ne_nil_of_mem hp
    have hEmpty : (extract_port_candidates (task ++ "\n" ++ command)).isEmpty = false := by
      cases hval : (extract_port_candidates (task ++ "\n" ++ command)).isEmpty
      · rfl
      · exact absurd (List.isEmpty_iff.mp hval) hne
    have hsome : ((extract_port_candidates (task ++ "\n" ++ command)).find?
        env.reach20).isSome = true := by
      rw [List.find?_isSome]
      exact ⟨p, hp, hreach⟩
    rcases hq : (extract_port_candidates (task ++ "\n" ++ command)).find? env.reach20
      with _ | q
    · rw [hq] at hsome
      exact absurd hsome (by simp)
    · refine ⟨q, ?_, List.mem_of_find?_eq_some hq, List.find?_some hq⟩
      show (if (extract_port_candidates (task ++ "\n" ++ command)).isEmpty then none
        else wait_for_any_port env.reach20
          (extract_port_candidates (task ++ "\n" ++ command))) = some q
      rw [hEmpty]
      show wait_for_any_port env.reach20 (extract_port_candidates (task ++ "\n" ++ command))
        = some q
      rw [wait_for_any_port, if_neg (by rw [hEmpty]; exact Bool.false_ne_true)]
      exact hq

/-- Witness for `start_background_process_record`: launching `npm start`
for a task mentioning localhost:3000 with port 3000 reachable. -/
theorem start_background_process_record_witness :
    (start_background_process
        ⟨"abcd1234", "/tmp", 77, some 77, (fun p => decide (p = 3000)), 0⟩
        [] [] "npm start" "/root/demo" "run the app on localhost:3000").1.success = true
    ∧ 0 < (start_background_process
        ⟨"abcd1234", "/tmp", 77, some 77, (fun p => decide (p = 3000)), 0⟩
        [] [] "npm start" "/root/demo" "run the app on localhost:3000").2.1.pid
    ∧ 0 < (start_background_process
        ⟨"abcd1234", "/tmp", 77, some 77, (fun p => decide (p = 3000)), 0⟩
        [] [] "npm start" "/root/demo" "run the app on localhost:3000").2.1.pgid
    ∧ (start_background_process
        ⟨"abcd1234", "/tmp", 77, some 77, (fun p => decide (p = 3000)), 0⟩
        [] [] "npm start" "/root/demo" "run the app on localhost:3000").2.1.active_port
        = some 3000 := by
  have h := start_background_process_record
    ⟨"abcd1234", "/tmp", 77, some 77, (fun p => decide (p = 3000)), 0⟩
    [] [] "npm start" "/root/demo" "run the app on localhost:3000"
    (by decide)
    (fun g hg => by
      have h77 : (77 : ℕ) = g := Option.some.inj hg
      omega)
  obtain ⟨q, hq1, hq2, hq3⟩ := h.2.2.2.2.2 3000 (by decide) (by decide)
  have hports : extract_port_candidates
      ("run the app on localhost:3000" ++ "\n" ++ "npm start") = [3000] := by decide
  have hq30 : q = 3000 := by
    rw [hports] at hq2
    simpa using hq2
  rw [hq30] at hq1
  exact ⟨h.1, h.2.1, h.2.2.1, hq1⟩

/-- C3: localhost-claim validation in `CLIAgent.execute`.  Every promoted
result reports success.  When the CLI output claims a local server
(localhost/port hint plus running hint) and mentions extractable ports,
none of which is reachable within the 15-second validation poll, the
validation produces an error naming those ports, and `execute` returns
failure with that error — unless a promotion attempt succeeds, in which
case its (successful) result is returned. -/
theorem cli_localhost_claim_validation :
    (∀ (resolve : String → String → Option String) (reach12 : ℕ → Bool)
      (env : OsEnv) (cwd0 : String) (fs : List String)
      (table : List (String × ProcMeta)) (task : String) (response : CLIResponse)
      (r : CLIResult) (fs2 : List String) (tb2 : List (String × ProcMeta)),
      maybe_promote_server_launch resolve reach12 env cwd0 fs table task response
        = some (r, fs2, tb2) → r.success = true)
    ∧ (∀ (reach15 : ℕ → Bool) (output : String),
      (str_contains (py_lower output) "localhost" = true
        ∨ str_contains (py_lower output) "127.0.0.1" = true
        ∨ str_contains (py_lower output) "port " = true) →
      (["running", "started", "listening", "serving", "available at"].any
        (fun w => str_contains (py_lower output) w) = true) →
      extract_port_candidates output ≠ [] →
      (∀ p ∈ extract_port_candidates output, reach15 p = false) →
      validate_local_server_claim reach15 output
        = some ("Task reported a local server as running, but none of the claimed ports are reachable: "
            ++ py_list_repr (extract_port_candidates output)
            ++ ". The process likely exited or never started successfully."))
    ∧ (∀ (resolve : String → String → Option String)
      (reach12a reach15 reach12b : ℕ → Bool) (env1 env2 : OsEnv) (cwd0 : String)
      (fs : List String) (table : List (String × ProcMeta)) (task : String)
      (response : CLIResponse) (err : String),
      validate_local_server_claim reach15 response.output = some err →
      (has_tool_calls response = false
        ∨ (maybe_promote_server_launch resolve reach12a env1 cwd0 fs table task response
              = none
            ∧ maybe_promote_server_launch resolve reach12b env2 cwd0 fs table task response
              = none)) →
      execute_tail resolve reach12a reach15 reach12b env1 env2 cwd0 fs table task response
        = ({ success := false, result := some response.output, error := some err,
             tool_calls := response.tool_calls }, fs, table))
    ∧ (∀ (resolve : String → String → Option String)
      (reach12a reach15 reach12b : ℕ → Bool) (env1 env2 : OsEnv) (cwd0 : String)
      (fs : List String) (table : List (String × ProcMeta)) (task : String)
      (response : CLIResponse) (r : CLIResult × List String × List (String × ProcMeta)),
      has_tool_calls response = true →
      maybe_promote_server_launch resolve reach12a env1 cwd0 fs table task response
        = some r →
      execute_tail resolve reach12a reach15 reach12b env1 env2 cwd0 fs table task response
        = r ∧ r.1.success = true) := by
  have hpromote : ∀ (resolve : String → String → Option String) (reach12 : ℕ → Bool)
      (env : OsEnv) (cwd0 : String) (fs : List String)
      (table : List (String × ProcMeta)) (task : String) (response : CLIResponse)
      (r : CLIResult) (fs2 : List String) (tb2 : List (String × ProcMeta)),
      maybe_promote_server_launch resolve reach12 env cwd0 fs table task response
        = some (r, fs2, tb2) → r.success = true := by
    intro resolve reach12 env cwd0 fs table task response r fs2 tb2 h
    unfold maybe_promote_server_launch at h
    split at h
    · exact absurd h (by simp)
    · dsimp only [] at h
      split at h
      · split at h
        · have h2 := (Option.some.inj h)
          have h3 := congrArg (fun t => t.1.success) h2
          simpa using h3.symm
        · exact absurd h (by simp)
      · have h2 := (Option.some.inj h)
        have h3 := congrArg (fun t => t.1.success) h2
        simpa using h3.symm
  refine ⟨hpromote, ?_, ?_, ?_⟩
  · intro reach15 output hhint hrun hne hreach
    have hout : output ≠ "" := by
      intro hout
      subst hout
      rcases hhint with h | h | h <;> exact absurd h (by decide)
    unfold validate_local_server_claim
    rw [if_neg hout]
    have hhint2 : (str_contains (py_lower output) "localhost"
        || str_contains (py_lower output) "127.0.0.1"
        || str_contains (py_lower output) "port ") = true := by
      rcases hhint with h | h | h <;> simp [h]
    rw [if_neg (by
      rw [hhint2, hrun]
      exact fun hc => hc ⟨rfl, rfl⟩)]
    have hEmpty : (extract_port_candidates output).isEmpty = false := by
      cases hval : (extract_port_candidates output).isEmpty
      · rfl
      · exact absurd (List.isEmpty_iff.mp hval) hne
    rw [if_neg (by rw [hEmpty]; exact Bool.false_ne_true)]
    have hnone : wait_for_any_port reach15 (extract_port_candidates output) = none := by
      rw [wait_for_any_port, if_neg (by rw [hEmpty]; exact Bool.false_ne_true)]
      rw [List.find?_eq_none]
      intro x hx
      rw [hreach x hx]
      exact Bool.false_ne_true
    rw [hnone]
  · intro resolve reach12a reach15 reach12b env1 env2 cwd0 fs table task response err
      hval hnone
    unfold execute_tail
    have hp1 : (if has_tool_calls response then
        maybe_promote_server_launch resolve reach12a env1 cwd0 fs table task response
        else none) = none := by
      rcases hnone with h | h
      · rw [if_neg (by rw [h]; exact Bool.false_ne_true)]
      · by_cases ht : has_tool_calls response = true
        · rw [if_pos ht]
          exact h.1
        · rw [if_neg ht]
    have hp2 : (if has_tool_calls response then
        maybe_promote_server_launch resolve reach12b env2 cwd0 fs table task response
        else none) = none := by
      rcases hnone with h | h
      · rw [if_neg (by rw [h]; exact Bool.false_ne_true)]
      · by_cases ht : has_tool_calls response = true
        · rw [if_pos ht]
          exact h.2
        · rw [if_neg ht]
    rw [hp1, hval, hp2]
  · intro resolve reach12a reach15 reach12b env1 env2 cwd0 fs table task response r
      ht hsome
    constructor
    · unfold execute_tail
      rw [if_pos ht, hsome]
    · rcases r with ⟨r1, fs2, tb2⟩
      exact hpromote resolve reach12a env1 cwd0 fs table task response r1 fs2 tb2 hsome

/-- Witness for `cli_localhost_claim_validation`: a run whose output claims
a server on localhost:3000, with no tool calls and port 3000 unreachable,
ends in failure naming the port. -/
theorem cli_localhost_claim_validation_witness :
    execute_tail (fun _ _ => none) (fun _ => false) (fun _ => false) (fun _ => false)
        ⟨"abcd1234", "/tmp", 77, some 77, fun _ => false, 0⟩
        ⟨"abcd1234", "/tmp", 77, some 77, fun _ => false, 0⟩
        "/root" [] [] "start the dev server"
        ⟨true, "Server running at http://localhost:3000", none, none⟩
      = ({ success := false,
           result := some "Server running at http://localhost:3000",
           error := some "Task reported a local server as running, but none of the claimed ports are reachable: [3000]. The process likely exited or never started successfully.",
           tool_calls := none }, [], []) := by
  have h2 := cli_localhost_claim_validation.2.1 (fun _ => false)
    "Server running at http://localhost:3000" (Or.inl (by decide)) (by decide)
    (by decide) (fun p _ => rfl)
  have h3 := cli_localhost_claim_validation.2.2.1 (fun _ _ => none) (fun _ => false)
    (fun _ => false) (fun _ => false)
    ⟨"abcd1234", "/tmp", 77, some 77, fun _ => false, 0⟩
    ⟨"abcd1234", "/tmp", 77, some 77, fun _ => false, 0⟩
    "/root" [] [] "start the dev server"
    ⟨true, "Server running at http://localhost:3000", none, none⟩ _ h2 (Or.inl rfl)
  rw [h3]
  decide

/-- Witness for `overlay_input_dedup`: two events with request id `req1`
5 seconds apart from the initial state yield exactly one handler call. -/
theorem overlay_input_dedup_witness :
    ((handle_overlay_input 5 "open the app" "req1"
        (handle_overlay_input 0 "open the app" "req1"
          initial_overlay_state)).handler_calls).length
      = (initial_overlay_state.handler_calls).length + 1 :=
  overlay_input_dedup.2.2.1 "req1" "open the app" "open the app" 0 5
    initial_overlay_state (by decide) rfl (by norm_num)

/-- C6: text panel placement. (a) Whenever the base anchor rectangle or one
of the ring candidates is overlap-free against the live cache (buffer 0),
the placement `_resolve_non_overlapping_anchor` accepts is overlap-free.
(b) Consequently `_create_text_non_overlapping` keeps the rectangles of the
live text cache pairwise non-overlapping whenever the cache was pairwise
non-overlapping and a free placement existed. (c) When no candidate is
overlap-free, the accepted candidate is the base or a ring candidate whose
total overlap area against the cache is minimal among all candidates, with
ties broken by the smallest Manhattan offset from the requested anchor. -/
theorem text_placement_non_overlap :
    (∀ ctx : ResolveCtx, free_placement_exists ctx →
        has_text_overlap ctx.cache (resolve_non_overlapping_anchor ctx).rect ctx.ignore
          = false)
    ∧ (∀ (cache : List (String × Rect)) (vw vh x y : ℤ) (text : String)
        (font_size : Option ℤ) (align baseline text_id : Option String)
        (uuid_id : String),
        cache_pairwise_free cache →
        free_placement_exists
          (create_text_resolve_ctx cache vw vh x y text font_size align baseline
            text_id uuid_id) →
        cache_pairwise_free
          (create_text_non_overlapping cache vw vh x y text font_size align baseline
            text_id uuid_id).2)
    ∧ (∀ ctx : ResolveCtx, ¬ free_placement_exists ctx →
        ∃ d : ℤ,
          ((resolve_non_overlapping_anchor ctx = ctx_candidate ctx (0, 0) ∧ d = 0)
            ∨ ∃ o ∈ all_ring_offsets,
                resolve_non_overlapping_anchor ctx = ctx_candidate ctx o
                ∧ d = |o.1| + |o.2|)
          ∧ ctx_score ctx (resolve_non_overlapping_anchor ctx)
              ≤ ctx_score ctx (ctx_candidate ctx (0, 0))
          ∧ (ctx_score ctx (resolve_non_overlapping_anchor ctx)
              = ctx_score ctx (ctx_candidate ctx (0, 0)) → d ≤ 0)
          ∧ ∀ o ∈ all_ring_offsets,
              ctx_score ctx (resolve_non_overlapping_anchor ctx)
                ≤ ctx_score ctx (ctx_candidate ctx o)
              ∧ (ctx_score ctx (resolve_non_overlapping_anchor ctx)
                  = ctx_score ctx (ctx_candidate ctx o) → d ≤ |o.1| + |o.2|)) := by
  have ha : ∀ ctx : ResolveCtx, free_placement_exists ctx →
      has_text_overlap ctx.cache (resolve_non_overlapping_anchor ctx).rect ctx.ignore
        = false := by
    intro ctx hfree
    unfold resolve_non_overlapping_anchor
    dsimp only []
    split_ifs with hbase
    · exact hbase
    · rcases hfree with h1 | h2
      · exact absurd h1 hbase
      · exact scan_offsets_free ctx all_ring_offsets _ _ _ h2
  refine ⟨ha, ?_, ?_⟩
  · intro cache vw vh x y text font_size align baseline text_id uuid_id hpw hfree
    have hres := ha _ hfree
    set rid := resolved_text_id_of text_id uuid_id with hrid
    set p := resolve_non_overlapping_anchor
      (create_text_resolve_ctx cache vw vh x y text font_size align baseline
        text_id uuid_id) with hp
    have hres2 : has_text_overlap cache p.rect (some rid) = false := hres
    show cache_pairwise_free
      ((cache.filter (fun q => q.1 ≠ rid)) ++ [(rid, p.rect)])
    unfold cache_pairwise_free
    rw [List.pairwise_append]
    refine ⟨List.Pairwise.sublist (List.filter_sublist _) hpw, by simp, ?_⟩
    intro a hafilter b hbmem
    rw [List.mem_singleton] at hbmem
    subst hbmem
    rw [List.mem_filter] at hafilter
    have hane : a.1 ≠ rid := by simpa using hafilter.2
    have hig2 : cache_entry_ignored (some rid) a.1 = false := by
      simp [cache_entry_ignored, hane]
    have hno := has_text_overlap_false_mem hres2 a hafilter.1 hig2
    show rects_overlap a.2 p.rect 0 = false
    rw [rects_overlap_comm]
    exact hno
  · intro ctx hnfree
    unfold free_placement_exists at hnfree
    push_neg at hnfree
    obtain ⟨hbase, hrings⟩ := hnfree
    have hbase2 : has_text_overlap ctx.cache (ctx_candidate ctx (0, 0)).rect ctx.ignore
        = true := by
      cases h : has_text_overlap ctx.cache (ctx_candidate ctx (0, 0)).rect ctx.ignore
      · exact absurd h hbase
      · rfl
    have hall : ∀ o ∈ all_ring_offsets,
        has_text_overlap ctx.cache (ctx_candidate ctx o).rect ctx.ignore = true := by
      intro o ho
      cases h : has_text_overlap ctx.cache (ctx_candidate ctx o).rect ctx.ignore
      · exact absurd h (hrings o ho)
      · rfl
    unfold resolve_non_overlapping_anchor
    dsimp only []
    rw [if_neg (by rw [hbase2]; decide)]
    obtain ⟨d, h1, h2, h3, h4⟩ := scan_offsets_min ctx all_ring_offsets
      (ctx_candidate ctx (0, 0))
      (overlap_score ctx.cache (ctx_candidate ctx (0, 0)).rect ctx.ignore) 0 rfl hall
    exact ⟨d, h1, h2, h3, h4⟩

/-- Witness for `text_placement_non_overlap`: creating a text panel on an
empty cache yields a pairwise non-overlapping cache. -/
theorem text_placement_non_overlap_witness :
    cache_pairwise_free
      (create_text_non_overlapping [] 1920 1080 200 150 "Hello" none none none none
        "abcd1234").2 :=
  text_placement_non_overlap.2.1 [] 1920 1080 200 150 "Hello" none none none none
    "abcd1234" List.Pairwise.nil (Or.inl rfl)

end Clovis
